import Mathlib

/-!
# Exercise Tracker (`04-Exercise Tracker/index.js`)

A shallow embedding of the four Express handlers of the memory-only exercise
tracker and of the two in-memory stores they share, followed by the properties
of the handlers.

The handlers are JavaScript, so the embedding carries the pieces of the
language that decide their behaviour: truthiness, the `Number` coercion,
`Array.prototype.slice`, property lookup on a plain object (own properties
first, then `Object.prototype`), and the `Date` built-ins.  The engine
built-ins whose results depend on the engine or on the time zone of the
process (`StringToNumber`, `Date.parse`, `toDateString`) are the fields of a
`Runtime`; the handlers are parametric in it and `node` is an executable
instance.
-/

namespace ExerciseTracker

/-! ## JavaScript values -/

/-- A JavaScript number.  Finite values are kept as exact rationals (every
binary64 value is one); `-0` is identified with `0`. -/
inductive JSNum where
  | nan
  | posInf
  | negInf
  | fin (q : ℚ)
  deriving DecidableEq

/-- A value found in `req.body` or `req.query`.  `object prim` stands for an
array or a plain object whose conversion to a primitive yields the string
`prim` (the comma-joined elements of an array, `[object Object]` for a plain
object); a body or query parser produces no other kind of object. -/
inductive JSVal where
  | undefined
  | null
  | bool (b : Bool)
  | num (n : JSNum)
  | str (s : String)
  | object (prim : String)
  deriving DecidableEq

/-- The global `isNaN` applied to a number. -/
def isNaN : JSNum → Bool
  | .nan => true
  | _ => false

/-- ToBoolean: `undefined`, `null`, `false`, `0`, `NaN` and the empty string
are falsy, every other value is truthy. -/
def truthy : JSVal → Bool
  | .undefined => false
  | .null => false
  | .bool b => b
  | .num .nan => false
  | .num (.fin q) => decide (q ≠ 0)
  | .num _ => true
  | .str s => decide (s ≠ "")
  | .object _ => true

/-! ## The engine built-ins -/

/-- The built-ins of the JavaScript engine that the handlers call and whose
results depend on the engine and on the time zone of the process.
`stringToNumber` is `Number` applied to a string, `dateParse` is the time
value (milliseconds since the epoch) of `new Date(s)` for a string `s`, with
`none` for an Invalid Date, and `toDateString` is
`Date.prototype.toDateString` on a valid time value. -/
structure Runtime where
  stringToNumber : String → JSNum
  dateParse : String → Option Int
  toDateString : Int → String

/-- What a request reads from the outside world: `now` is `Date.now()` (also
the time value of `new Date()`), `randomBase36` is
`Math.random().toString(36)`. -/
structure Effects where
  now : Int
  randomBase36 : String

/-- `Number(v)`. -/
def toNumber (rt : Runtime) : JSVal → JSNum
  | .undefined => .nan
  | .null => .fin 0
  | .bool b => .fin (if b then 1 else 0)
  | .num n => n
  | .str s => rt.stringToNumber s
  | .object prim => rt.stringToNumber prim

/-- Truncation of a rational towards zero. -/
def truncate (q : ℚ) : Int := Int.tdiv q.num q.den

/-- TimeClip: the time value of `new Date(n)` for a number `n`. -/
def timeClip : JSNum → Option Int
  | .fin q => if |q| ≤ 8640000000000000 then some (truncate q) else none
  | _ => none

/-- The time value of `new Date(v)`, `none` for an Invalid Date. -/
def newDate (rt : Runtime) : JSVal → Option Int
  | .undefined => none
  | .null => some 0
  | .bool b => some (if b then 1 else 0)
  | .num n => timeClip n
  | .str s => rt.dateParse s
  | .object prim => rt.dateParse prim

/-- The end index that `Array.prototype.slice(0, n)` computes on an array of
length `len`: `n` is truncated to an integer, a negative one counts from the
end of the array, and the result is clamped to `0 .. len`. -/
def sliceEnd (len : Nat) : JSNum → Nat
  | .nan => 0
  | .posInf => len
  | .negInf => 0
  | .fin q =>
    let k := truncate q
    if k < 0 then ((len : Int) + k).toNat else min k.toNat len

/-- `xs.slice(0, n)`. -/
def slice0 {α : Type} (xs : List α) (n : JSNum) : List α :=
  xs.take (sliceEnd xs.length n)

/-! ## Plain objects used as maps -/

/-- The property names every plain object inherits from `Object.prototype`;
each of them reads as a function or an object, hence as a truthy value. -/
def objectPrototypeKeys : List String :=
  ["constructor", "__defineGetter__", "__defineSetter__", "hasOwnProperty",
   "__lookupGetter__", "__lookupSetter__", "isPrototypeOf",
   "propertyIsEnumerable", "toString", "valueOf", "__proto__", "toLocaleString"]

/-- The result of reading `o[k]` on a plain object: an own property, a member
inherited from `Object.prototype`, or `undefined`. -/
inductive Slot (α : Type) where
  | own (a : α)
  | inherited
  | undefined
  deriving DecidableEq

/-- `o[k]`: own properties first, then the prototype. -/
def getProp {α : Type} (o : List (String × α)) (k : String) : Slot α :=
  match o.lookup k with
  | some a => .own a
  | none => if k ∈ objectPrototypeKeys then .inherited else .undefined

/-- `o[k] = v`: an existing own property keeps its place, a new one is added
last.  The only keys assigned are generated identifiers, which start with a
base-36 digit or a minus sign, so the special key `__proto__` does not
arise. -/
def setProp {α : Type} : List (String × α) → String → α → List (String × α)
  | [], k, v => [(k, v)]
  | (k', v') :: o, k, v =>
    if k' = k then (k, v) :: o else (k', v') :: setProp o k v

/-- The number denoted by a canonical decimal numeral. -/
def decimalValue (cs : List Char) : Nat :=
  cs.foldl (fun n c => 10 * n + (c.toNat - 48)) 0

/-- The array index a property key denotes, if it is one: a canonical decimal
numeral below `2 ^ 32 - 1`. -/
def arrayIndex (k : String) : Option Nat :=
  let cs := k.toList
  if cs ≠ [] ∧ cs.all Char.isDigit ∧ (cs.head? ≠ some (Char.ofNat 48) ∨ cs.length = 1)
      ∧ decimalValue cs < 4294967295 then
    some (decimalValue cs)
  else none

/-- `Object.values(o)`: the values of the array-index keys in ascending index
order, then the values of the other keys in insertion order. -/
def objectValues {α : Type} (o : List (String × α)) : List α :=
  let indexed := o.filterMap (fun kv => (arrayIndex kv.1).map (fun i => (i, kv.2)))
  let others := o.filter (fun kv => (arrayIndex kv.1).isNone)
  (indexed.insertionSort (fun a b => a.1 ≤ b.1)).map Prod.snd ++ others.map Prod.snd

/-! ## The stores and the messages -/

/-- A user record `{ username, _id }`. -/
structure User where
  username : JSVal
  _id : String
  deriving DecidableEq

/-- An exercise entry `{ description, duration, date }`. -/
structure Entry where
  description : JSVal
  duration : JSNum
  date : String
  deriving DecidableEq

/-- The two in-memory stores `users` and `logs`. -/
structure Store where
  users : List (String × User)
  logs : List (String × List Entry)
  deriving DecidableEq

/-- The stores when the process starts. -/
def Store.empty : Store := ⟨[], []⟩

/-- The fields of `req.body` the handlers read; a missing field is
`undefined`. -/
structure Body where
  username : JSVal := .undefined
  description : JSVal := .undefined
  duration : JSVal := .undefined
  date : JSVal := .undefined

/-- The fields of `req.query` the log handler reads. -/
structure Query where
  from_ : JSVal := .undefined
  to_ : JSVal := .undefined
  limit : JSVal := .undefined

/-- What a handler sends.  `error` is `res.status(status).json({ error })`,
the next four are the objects passed to `res.json` with status 200, and
`uncaught` is a `TypeError` that escapes the handler, which Express answers
with status 500.  These are the objects handed to `res.json`, not the text of
the body: in the body a field that is `undefined` is left out and a number
is written as `jsonNumber` gives it. -/
inductive Response where
  | error (status : Nat) (error : String)
  | user (u : User)
  | users (us : List User)
  | exercise (username description : JSVal) (duration : JSNum) (date : String) (_id : JSVal)
  | log (username : JSVal) (count : Nat) (_id : JSVal) (log : List Entry)
  | uncaught
  deriving DecidableEq

/-- The HTTP status of a response. -/
def Response.status : Response → Nat
  | .error status _ => status
  | .uncaught => 500
  | _ => 200

/-- The `count` field of a log response. -/
def Response.count : Response → Option Nat
  | .log _ n _ _ => some n
  | _ => none

/-- The `log` field of a log response. -/
def Response.entries : Response → Option (List Entry)
  | .log _ _ _ entries => some entries
  | _ => none

/-- `user.username` for the value read from `users[_id]`; a member of
`Object.prototype` has no such property. -/
def Slot.username : Slot User → JSVal
  | .own u => u.username
  | _ => .undefined

/-- `user._id` for the value read from `users[_id]`. -/
def Slot.id : Slot User → JSVal
  | .own u => .str u._id
  | _ => .undefined

/-! ## The handlers -/

/-- The digit of `Number.prototype.toString(36)` for a value below 36. -/
def digitChar36 (d : Nat) : Char :=
  if d < 10 then Char.ofNat (48 + d) else Char.ofNat (87 + d)

/-- The base-36 digits of `n`, most significant first, in front of `acc`. -/
def digits36 : Nat → Nat → List Char → List Char
  | 0, _, acc => acc
  | fuel + 1, n, acc =>
    if n / 36 = 0 then digitChar36 (n % 36) :: acc
    else digits36 fuel (n / 36) (digitChar36 (n % 36) :: acc)

/-- `n.toString(36)` for an integer `n`. -/
def toString36 : Int → String
  | .ofNat m => String.mk (digits36 (m + 1) m [])
  | .negSucc m => String.mk ('-' :: digits36 (m + 2) (m + 1) [])

/-- `s.slice(2, 8)` on a string. -/
def slice28 (s : String) : String := String.mk ((s.toList.drop 2).take 6)

/-- Source: `makeId`,
`Date.now().toString(36) + Math.random().toString(36).slice(2,8)`. -/
def makeId (eff : Effects) : String :=
  toString36 eff.now ++ slice28 eff.randomBase36

/-- Source: `app.post("/api/users")`. -/
def postUsers (eff : Effects) (st : Store) (body : Body) : Response × Store :=
  let username := body.username
  if !truthy username then (.error 400 "username required", st)
  else
    let _id := makeId eff
    let users := setProp st.users _id ⟨username, _id⟩
    let logs := setProp st.logs _id []
    (.user ⟨username, _id⟩, ⟨users, logs⟩)

/-- Source: `app.get("/api/users")`. -/
def getUsers (st : Store) : Response :=
  .users (objectValues st.users)

/-- Source: `app.post("/api/users/:_id/exercises")`.  The last step,
`logs[_id].push(entry)`, throws when `logs[_id]` is not an array. -/
def postExercises (rt : Runtime) (eff : Effects) (st : Store) (_id : String) (body : Body) :
    Response × Store :=
  match getProp st.users _id with
  | .undefined => (.error 400 "unknown _id", st)
  | user =>
    let description := body.description
    let duration := toNumber rt body.duration
    let dateRaw := body.date
    if !truthy description || !truthy body.duration then
      (.error 400 "description and duration required", st)
    else if isNaN duration then (.error 400 "duration must be a number", st)
    else
      let dateObj := if truthy dateRaw then newDate rt dateRaw else some eff.now
      match dateObj with
      | none => (.error 400 "invalid date", st)
      | some t =>
        let date := rt.toDateString t
        let entry : Entry := ⟨description, duration, date⟩
        match getProp st.logs _id with
        | .own userLogs =>
          (.exercise user.username description duration date user.id,
            ⟨st.users, setProp st.logs _id (userLogs ++ [entry])⟩)
        | _ => (.uncaught, st)

/-- The comparison `new Date(l.date) >= fromDate` for a valid `fromDate`; an
Invalid Date on the left compares false. -/
def dateGE (d : Option Int) (fromDate : Int) : Bool :=
  match d with
  | some t => decide (fromDate ≤ t)
  | none => false

/-- The comparison `new Date(l.date) <= toDate` for a valid `toDate`. -/
def dateLE (d : Option Int) (toDate : Int) : Bool :=
  match d with
  | some t => decide (t ≤ toDate)
  | none => false

/-- The `if (from) { ... }` step of the log handler. -/
def filterFrom (rt : Runtime) (from_ : JSVal) (userLogs : List Entry) : List Entry :=
  if truthy from_ then
    match newDate rt from_ with
    | some fromDate => userLogs.filter (fun l => dateGE (rt.dateParse l.date) fromDate)
    | none => userLogs
  else userLogs

/-- The `if (to) { ... }` step of the log handler. -/
def filterTo (rt : Runtime) (to_ : JSVal) (userLogs : List Entry) : List Entry :=
  if truthy to_ then
    match newDate rt to_ with
    | some toDate => userLogs.filter (fun l => dateLE (rt.dateParse l.date) toDate)
    | none => userLogs
  else userLogs

/-- The `if (limit) { ... }` step of the log handler. -/
def applyLimit (rt : Runtime) (limit : JSVal) (userLogs : List Entry) : List Entry :=
  if truthy limit then
    let n := toNumber rt limit
    if !isNaN n then slice0 userLogs n else userLogs
  else userLogs

/-- The entry the log handler returns for a stored one:
`date: new Date(l.date).toDateString()`, which is `Invalid Date` when the
stored string does not parse. -/
def normalize (rt : Runtime) (l : Entry) : Entry :=
  { description := l.description
    duration := l.duration
    date := match rt.dateParse l.date with
      | some t => rt.toDateString t
      | none => "Invalid Date" }

/-- Source: `app.get("/api/users/:_id/logs")`.  `logs[_id] || []` is a member
of `Object.prototype` when `_id` names one and `logs` has no such own
property; every path then calls `filter`, `slice` or `map` on it and throws. -/
def getLogs (rt : Runtime) (st : Store) (_id : String) (query : Query) : Response :=
  match getProp st.users _id with
  | .undefined => .error 400 "unknown _id"
  | user =>
    let stored : Option (List Entry) :=
      match getProp st.logs _id with
      | .own userLogs => some userLogs
      | .inherited => none
      | .undefined => some []
    match stored with
    | none => .uncaught
    | some userLogs =>
      let userLogs := filterFrom rt query.from_ userLogs
      let userLogs := filterTo rt query.to_ userLogs
      let userLogs := applyLimit rt query.limit userLogs
      let logNormalized := userLogs.map (normalize rt)
      .log user.username userLogs.length user.id logNormalized

/-- A request to one of the four routes. -/
inductive Request where
  | postUsers (body : Body)
  | getUsers
  | postExercises (_id : String) (body : Body)
  | getLogs (_id : String) (query : Query)

/-- The router: the response to a request and the stores after it. -/
def handle (rt : Runtime) (eff : Effects) (st : Store) : Request → Response × Store
  | .postUsers body => postUsers eff st body
  | .getUsers => (getUsers st, st)
  | .postExercises _id body => postExercises rt eff st _id body
  | .getLogs _id query => (getLogs rt st _id query, st)

/-- The store states the process can be in: the empty stores, and the stores
after any request in such a state. -/
inductive Reachable (rt : Runtime) : Store → Prop where
  | init : Reachable rt Store.empty
  | step {st : Store} (eff : Effects) (req : Request) :
      Reachable rt st → Reachable rt (handle rt eff st req).2

/-! ## A model of the engine

The built-ins `Number`, `Date.parse` and `toDateString` belong to the
JavaScript engine, not to the repository.  The general properties below are
stated for every `Runtime`.  `node tz` is a model of Node.js, written from the
ECMAScript specification and the behaviour of V8, that is only evaluated at
concrete inputs inside its limits:

* the local time is a constant `tz` minutes ahead of UTC, with no daylight
  saving changes;
* `stringToNumber` implements the `StringNumericLiteral` grammar; a finite
  value is kept as an exact rational and not rounded to binary64, except that
  a value too large for binary64 is an infinity;
* `dateParse` reads the ECMAScript date-time string format with a four-digit
  year and the format `toDateString` produces, and treats every other string
  as an Invalid Date, whereas the engine accepts more through heuristics.
-/

/-- White space and line terminators, by code point. -/
def isStrWhiteSpace (c : Char) : Bool :=
  let n := c.toNat
  n ∈ [9, 10, 11, 12, 13, 32, 160, 5760, 8232, 8233, 8239, 8287, 12288, 65279]
    || (8192 ≤ n && n ≤ 8202)

/-- The string without leading and trailing white space. -/
def trimWhiteSpace (cs : List Char) : List Char :=
  ((cs.dropWhile isStrWhiteSpace).reverse.dropWhile isStrWhiteSpace).reverse

/-- The value of a digit in a base up to 16. -/
def digitValue (base : Nat) (c : Char) : Option Nat :=
  let n := c.toNat
  let v := if 48 ≤ n ∧ n ≤ 57 then n - 48
    else if 97 ≤ n ∧ n ≤ 102 then n - 87
    else if 65 ≤ n ∧ n ≤ 70 then n - 55
    else 16
  if v < base then some v else none

/-- The number a string of digits denotes in `base`, read after `acc`. -/
def digitsValue (base : Nat) : List Char → Nat → Option Nat
  | [], acc => some acc
  | c :: cs, acc =>
    match digitValue base c with
    | some v => digitsValue base cs (base * acc + v)
    | none => none

/-- A non-empty string of digits in `base`. -/
def numeral (base : Nat) (cs : List Char) : Option Nat :=
  if cs = [] then none else digitsValue base cs 0

/-- The rational `m * 10 ^ e`. -/
def scale10 (m : Nat) (e : Int) : ℚ :=
  if 0 ≤ e then (m : ℚ) * 10 ^ e.toNat else mkRat m (10 ^ (-e).toNat)

/-- An `ExponentPart` (or nothing): the exponent it denotes. -/
def exponentPart : List Char → Option Int
  | [] => some 0
  | e :: cs =>
    if e = 'e' ∨ e = 'E' then
      match cs with
      | '+' :: ds => (numeral 10 ds).map Int.ofNat
      | '-' :: ds => (numeral 10 ds).map (fun n => - Int.ofNat n)
      | ds => (numeral 10 ds).map Int.ofNat
    else none

/-- A `StrUnsignedDecimalLiteral`: `none` when the string is not one, else
`some none` for `Infinity` and `some (some q)` for a finite literal. -/
def unsignedDecimal (cs : List Char) : Option (Option ℚ) :=
  if cs = "Infinity".toList then some none
  else
    let ip := cs.takeWhile Char.isDigit
    let r1 := cs.dropWhile Char.isDigit
    let fp := match r1 with
      | '.' :: t => t.takeWhile Char.isDigit
      | _ => []
    let r2 := match r1 with
      | '.' :: t => t.dropWhile Char.isDigit
      | _ => r1
    if ip = [] ∧ fp = [] then none
    else
      match digitsValue 10 (ip ++ fp) 0, exponentPart r2 with
      | some m, some e => some (some (scale10 m (e - Int.ofNat fp.length)))
      | _, _ => none

/-- The number a literal of exact value `q` denotes: an infinity when `q` is
at least `2 ^ 1024 - 2 ^ 970` in size, where rounding to binary64 overflows,
else `q` itself. -/
def ofExact (q : ℚ) : JSNum :=
  if (2 : ℚ) ^ 1024 - 2 ^ 970 ≤ q then .posInf
  else if q ≤ -((2 : ℚ) ^ 1024 - 2 ^ 970) then .negInf
  else .fin q

/-- A `StrDecimalLiteral`: an optional sign and an unsigned literal. -/
def strDecimalLiteral (cs : List Char) : JSNum :=
  match cs with
  | '+' :: r =>
    match unsignedDecimal r with
    | some (some q) => ofExact q
    | some none => .posInf
    | none => .nan
  | '-' :: r =>
    match unsignedDecimal r with
    | some (some q) => ofExact (-q)
    | some none => .negInf
    | none => .nan
  | r =>
    match unsignedDecimal r with
    | some (some q) => ofExact q
    | some none => .posInf
    | none => .nan

/-- A `NonDecimalIntegerLiteral` body in `base`. -/
def nonDecimal (base : Nat) (cs : List Char) : JSNum :=
  match numeral base cs with
  | some n => ofExact n
  | none => .nan

/-- Modelled from the spec: `Number(s)` for a string `s` is an engine
built-in, absent from the repository; this is StringToNumber of the ECMAScript
specification, without the rounding of finite values to binary64. -/
def stringToNumber (s : String) : JSNum :=
  match trimWhiteSpace s.toList with
  | [] => .fin 0
  | '0' :: x :: rest =>
    if x = 'x' ∨ x = 'X' then nonDecimal 16 rest
    else if x = 'o' ∨ x = 'O' then nonDecimal 8 rest
    else if x = 'b' ∨ x = 'B' then nonDecimal 2 rest
    else strDecimalLiteral ('0' :: x :: rest)
  | cs => strDecimalLiteral cs

/-- The day number (days since 1 January 1970) of a civil date; a day past
the end of the month runs on into the next one. -/
def daysFromCivil (y : Int) (m d : Nat) : Int :=
  let y1 := if m ≤ 2 then y - 1 else y
  let era := y1 / 400
  let yoe := y1 - era * 400
  let mp : Int := if m > 2 then Int.ofNat m - 3 else Int.ofNat m + 9
  let doy := (153 * mp + 2) / 5 + Int.ofNat d - 1
  let doe := yoe * 365 + yoe / 4 - yoe / 100 + doy
  era * 146097 + doe - 719468

/-- The civil date (year, month, day of month) of a day number. -/
def civilFromDays (z : Int) : Int × Nat × Nat :=
  let z1 := z + 719468
  let era := z1 / 146097
  let doe := z1 - era * 146097
  let yoe := (doe - doe / 1460 + doe / 36524 - doe / 146096) / 365
  let doy := doe - (365 * yoe + yoe / 4 - yoe / 100)
  let mp := (5 * doy + 2) / 153
  let d := doy - (153 * mp + 2) / 5 + 1
  let m := if mp < 10 then mp + 3 else mp - 9
  let y := yoe + era * 400
  (if m ≤ 2 then y + 1 else y, m.toNat, d.toNat)

/-- The English three-letter day names, Sunday first. -/
def dayNames : List String := ["Sun", "Mon", "Tue", "Wed", "Thu", "Fri", "Sat"]

/-- The English three-letter month names. -/
def monthNames : List String :=
  ["Jan", "Feb", "Mar", "Apr", "May", "Jun", "Jul", "Aug", "Sep", "Oct", "Nov", "Dec"]

/-- The decimal digits of `n`, padded with zeros to at least `width`. -/
def padded (width n : Nat) : String :=
  let ds := Nat.toDigits 10 n
  String.mk (List.replicate (width - ds.length) '0' ++ ds)

/-- The string `Www Mmm DD YYYY` of the day with local day number `z`. -/
def dateString (z : Int) : String :=
  let (y, m, d) := civilFromDays z
  let wd := ((z + 4) % 7).toNat
  dayNames.getD wd "" ++ " " ++ monthNames.getD (m - 1) "" ++ " " ++ padded 2 d ++ " "
    ++ (if y < 0 then "-" else "") ++ padded 4 y.natAbs

/-- The milliseconds in a day and in a minute. -/
def msPerDay : Int := 86400000

/-- The milliseconds in a minute. -/
def msPerMinute : Int := 60000

/-- The day number of `YYYY`, `MM`, `DD` given as digit strings, when the
month is 1 to 12 and the day 1 to 31. -/
def dayOfFields (y m d : List Char) : Option Int :=
  match numeral 10 y, numeral 10 m, numeral 10 d with
  | some yv, some mv, some dv =>
    if 1 ≤ mv ∧ mv ≤ 12 ∧ 1 ≤ dv ∧ dv ≤ 31 then some (daysFromCivil (Int.ofNat yv) mv dv)
    else none
  | _, _, _ => none

/-- The offset from UTC, in minutes, that a time-zone suffix denotes: `tz`
for no suffix (local time), 0 for `Z`, else the one of `±HH:mm`. -/
def zoneOffset (tz : Int) : List Char → Option Int
  | [] => some tz
  | ['Z'] => some 0
  | [sg, h1, h2, ':', m1, m2] =>
    match numeral 10 [h1, h2], numeral 10 [m1, m2] with
    | some h, some m =>
      if h ≤ 23 ∧ m ≤ 59 then
        if sg = '+' then some (Int.ofNat (60 * h + m))
        else if sg = '-' then some (- Int.ofNat (60 * h + m))
        else none
      else none
    | _, _ => none
  | _ => none

/-- The seconds and milliseconds part `:ss` or `:ss.sss` in front of a zone
suffix: the milliseconds it denotes and the rest of the string. -/
def secondsPart : List Char → Option (Nat × List Char)
  | ':' :: s1 :: s2 :: '.' :: f1 :: f2 :: f3 :: rest =>
    match numeral 10 [s1, s2], numeral 10 [f1, f2, f3] with
    | some sv, some fv => if sv ≤ 59 then some (1000 * sv + fv, rest) else none
    | _, _ => none
  | ':' :: s1 :: s2 :: rest =>
    match numeral 10 [s1, s2] with
    | some sv => if sv ≤ 59 then some (1000 * sv, rest) else none
    | none => none
  | rest => some (0, rest)

/-- The time part `HH:mm[:ss[.sss]][zone]` after the `T`: the milliseconds
since UTC midnight of the day it is written for. -/
def timePart (tz : Int) : List Char → Option Int
  | h1 :: h2 :: ':' :: n1 :: n2 :: rest =>
    match numeral 10 [h1, h2], numeral 10 [n1, n2], secondsPart rest with
    | some h, some n, some (ms, zone) =>
      match zoneOffset tz zone with
      | some off =>
        if (h ≤ 23 ∧ n ≤ 59) ∨ (h = 24 ∧ n = 0 ∧ ms = 0) then
          some (Int.ofNat (3600000 * h + 60000 * n + ms) - off * msPerMinute)
        else none
      | none => none
    | _, _, _ => none
  | _ => none

/-- The three-letter month name at the head of a string. -/
def monthOfName (cs : List Char) : Option Nat :=
  let i := monthNames.indexOf (String.mk cs)
  if i < 12 then some (i + 1) else none

/-- The year the engine reads from a year field outside the ECMAScript
format: a value below 50 counts from 2000 and one from 50 to 99 from 1900. -/
def legacyYear (y : Nat) : Nat :=
  if y < 50 then 2000 + y else if y < 100 then 1900 + y else y

/-- Modelled from the spec: `Date.parse` is an engine built-in, absent from
the repository.  A date-only form is UTC; a date-time form without a zone and
the `toDateString` form are local time, and the year of the latter is read
through `legacyYear`.  Every other string is an Invalid Date here. -/
def dateParse (tz : Int) (s : String) : Option Int :=
  match s.toList with
  | [y1, y2, y3, y4, '-', m1, m2, '-', d1, d2] =>
    (dayOfFields [y1, y2, y3, y4] [m1, m2] [d1, d2]).map (fun z => z * msPerDay)
  | y1 :: y2 :: y3 :: y4 :: '-' :: m1 :: m2 :: '-' :: d1 :: d2 :: 'T' :: rest =>
    match dayOfFields [y1, y2, y3, y4] [m1, m2] [d1, d2], timePart tz rest with
    | some z, some ms => some (z * msPerDay + ms)
    | _, _ => none
  | [w1, w2, w3, ' ', n1, n2, n3, ' ', d1, d2, ' ', y1, y2, y3, y4] =>
    if String.mk [w1, w2, w3] ∈ dayNames then
      match monthOfName [n1, n2, n3], numeral 10 [d1, d2], numeral 10 [y1, y2, y3, y4] with
      | some m, some d, some y =>
        if 1 ≤ d ∧ d ≤ 31 then
          some (daysFromCivil (Int.ofNat (legacyYear y)) m d * msPerDay - tz * msPerMinute)
        else none
      | _, _, _ => none
    else none
  | _ => none

/-- Modelled from the spec: `Date.prototype.toDateString` is an engine
built-in, absent from the repository; it renders the local day of a time
value, here for a constant offset from UTC. -/
def toDateString (tz : Int) (t : Int) : String :=
  dateString ((t + tz * msPerMinute) / msPerDay)

/-- Modelled from the spec: the engine built-ins the handlers call are absent
from the repository; this is Node.js in a process whose local time is a
constant `tz` minutes ahead of UTC, within the limits given at the head of
this section. -/
def node (tz : Int) : Runtime where
  stringToNumber := stringToNumber
  dateParse := dateParse tz
  toDateString := toDateString tz

/-! ## Vocabulary of the properties -/

/-- The date bound a query parameter contributes: the time value of a
non-empty parameter that is a valid date, nothing otherwise. -/
def bound (rt : Runtime) (v : JSVal) : Option Int :=
  if truthy v then newDate rt v else none

/-- The time value the engine reads from an entry's stored date string is at
or after the lower bound, when there is one, and at or before the upper bound,
when there is one; with a bound present, a stored string the engine cannot
read is out of range. -/
def inRange (rt : Runtime) (lo hi : Option Int) (l : Entry) : Bool :=
  match rt.dateParse l.date with
  | some t =>
    (match lo with
      | some a => decide (a ≤ t)
      | none => true)
    && (match hi with
      | some b => decide (t ≤ b)
      | none => true)
  | none => lo.isNone && hi.isNone

/-- The first `N` entries of a sequence for a limit whose `Number` is `N`:
all of it when it has fewer than `N` entries, so all of it for `Infinity`, and
none of it when `N` is below zero; the sequence itself for a limit whose
`Number` is `NaN`. -/
def firstN (n : JSNum) (l : List Entry) : List Entry :=
  match n with
  | .nan => l
  | .posInf => l
  | .negInf => []
  | .fin r => l.take ⌊r⌋₊

/-- The keys of a plain object. -/
def keys {α : Type} (o : List (String × α)) : List String := o.map Prod.fst

/-- The stores after a sequence of requests, each with what it reads from the
outside world. -/
def runRequests (rt : Runtime) : Store → List (Effects × Request) → Store
  | st, [] => st
  | st, (eff, req) :: rest => runRequests rt (handle rt eff st req).2 rest

/-- A clock reading (1 January 2024, 00:00 UTC) and a random draw. -/
def sampleEffects : Effects := ⟨1704067200000, "0.4fzyo82mvyr"⟩

/-- The same random draw read one millisecond later. -/
def laterEffects : Effects := ⟨1704067200001, "0.4fzyo82mvyr"⟩

/-- The identifier generated under `sampleEffects`. -/
def aliceId : String := makeId sampleEffects

/-- The requests that create user `alice` and log three exercises dated 1, 2
and 3 January 2024. -/
def sampleRequests : List (Effects × Request) :=
  [(sampleEffects, .postUsers { username := .str "alice" }),
   (sampleEffects, .postExercises aliceId
      { description := .str "run", duration := .str "30", date := .str "2024-01-01" }),
   (sampleEffects, .postExercises aliceId
      { description := .str "swim", duration := .str "45", date := .str "2024-01-02" }),
   (sampleEffects, .postExercises aliceId
      { description := .str "row", duration := .str "20", date := .str "2024-01-03" })]

/-- The stores of a UTC process after `sampleRequests`. -/
def sampleStore : Store := runRequests (node 0) Store.empty sampleRequests

/-- The three entries of `sampleStore`. -/
def entry1 : Entry := ⟨.str "run", .fin 30, "Mon Jan 01 2024"⟩

/-- The second entry of `sampleStore`. -/
def entry2 : Entry := ⟨.str "swim", .fin 45, "Tue Jan 02 2024"⟩

/-- The third entry of `sampleStore`. -/
def entry3 : Entry := ⟨.str "row", .fin 20, "Wed Jan 03 2024"⟩

/-- The entries the log handler keeps of a stored sequence: the three steps
`from`, `to`, `limit` in the order of the source. -/
def selected (rt : Runtime) (query : Query) (es : List Entry) : List Entry :=
  applyLimit rt query.limit (filterTo rt query.to_ (filterFrom rt query.from_ es))

/-- A number is a whole number: finite, with denominator 1. -/
def isInteger : JSNum → Bool
  | .fin q => decide (q.den = 1)
  | _ => false

/-- The `date` field of an exercise-creation response. -/
def Response.date : Response → Option String
  | .exercise _ _ _ d _ => some d
  | _ => none

/-- Modelled from the spec: `JSON.stringify`, through which `res.json` writes
the body, is an engine built-in, absent from the repository.  This is what it
writes for a number value: the value itself when it is finite, and nothing,
the text `null`, for `NaN` and the infinities. -/
def jsonNumber : JSNum → Option ℚ
  | .fin q => some q
  | _ => none

/-- The requests that create user `alice` and log one exercise dated 1 January
of the year 50. -/
def oldDateRequests : List (Effects × Request) :=
  [(sampleEffects, .postUsers { username := .str "alice" }),
   (sampleEffects, .postExercises aliceId
      { description := .str "run", duration := .str "30", date := .str "0050-01-01" })]

/-- The stores of a UTC process after `oldDateRequests`. -/
def oldDateStore : Store := runRequests (node 0) Store.empty oldDateRequests

/-- The day number, in the local time of a process `tz` minutes ahead of UTC,
of the calendar day a time value falls on. -/
def localDay (tz : Int) (t : Int) : Int := (t + tz * msPerMinute) / msPerDay

/-! ## Reading the stores -/

theorem getProp_of_lookup {α : Type} {o : List (String × α)} {k : String} {a : α}
    (h : o.lookup k = some a) : getProp o k = .own a := by
  simp [getProp, h]

theorem getLogs_of_lookup (rt : Runtime) (st : Store) (_id : String) (query : Query)
    (u : User) (es : List Entry)
    (hu : st.users.lookup _id = some u) (hl : st.logs.lookup _id = some es) :
    getLogs rt st _id query =
      .log u.username
        (applyLimit rt query.limit (filterTo rt query.to_ (filterFrom rt query.from_ es))).length
        (.str u._id)
        ((applyLimit rt query.limit
          (filterTo rt query.to_ (filterFrom rt query.from_ es))).map (normalize rt)) := by
  simp [getLogs, getProp_of_lookup hu, getProp_of_lookup hl, Slot.username, Slot.id]

theorem inRange_none (rt : Runtime) (l : Entry) : inRange rt none none l = true := by
  unfold inRange
  cases rt.dateParse l.date <;> rfl

theorem inRange_lower (rt : Runtime) (a : Int) (l : Entry) :
    inRange rt (some a) none l = dateGE (rt.dateParse l.date) a := by
  unfold inRange dateGE
  cases rt.dateParse l.date <;> simp

theorem inRange_upper (rt : Runtime) (b : Int) (l : Entry) :
    inRange rt none (some b) l = dateLE (rt.dateParse l.date) b := by
  unfold inRange dateLE
  cases rt.dateParse l.date <;> simp

theorem inRange_and (rt : Runtime) (lo hi : Option Int) (l : Entry) :
    inRange rt lo hi l = (inRange rt none hi l && inRange rt lo none l) := by
  unfold inRange
  cases rt.dateParse l.date <;> cases lo <;> cases hi <;> simp [Bool.and_comm]

theorem filter_inRange_none (rt : Runtime) (es : List Entry) :
    es.filter (inRange rt none none) = es := by
  have h : inRange rt none none = fun _ => true := funext (inRange_none rt)
  rw [h]
  exact List.filter_true es

theorem filterFrom_eq (rt : Runtime) (v : JSVal) (es : List Entry) :
    filterFrom rt v es = es.filter (inRange rt (bound rt v) none) := by
  unfold filterFrom bound
  cases truthy v with
  | false => simp [filter_inRange_none]
  | true =>
    cases newDate rt v with
    | none => simp [filter_inRange_none]
    | some a =>
      have h : inRange rt (some a) none = fun l => dateGE (rt.dateParse l.date) a :=
        funext (inRange_lower rt a)
      simp [h]

theorem filterTo_eq (rt : Runtime) (v : JSVal) (es : List Entry) :
    filterTo rt v es = es.filter (inRange rt none (bound rt v)) := by
  unfold filterTo bound
  cases truthy v with
  | false => simp [filter_inRange_none]
  | true =>
    cases newDate rt v with
    | none => simp [filter_inRange_none]
    | some b =>
      have h : inRange rt none (some b) = fun l => dateLE (rt.dateParse l.date) b :=
        funext (inRange_upper rt b)
      simp [h]

theorem filterTo_filterFrom (rt : Runtime) (f t : JSVal) (es : List Entry) :
    filterTo rt t (filterFrom rt f es) = es.filter (inRange rt (bound rt f) (bound rt t)) := by
  rw [filterFrom_eq, filterTo_eq, List.filter_filter]
  congr 1
  funext l
  exact (inRange_and rt _ _ l).symm

theorem truncate_toNat {r : ℚ} (h : 0 ≤ r) : (truncate r).toNat = ⌊r⌋₊ := by
  have hnum : 0 ≤ r.num := Rat.num_nonneg.mpr h
  have hden : (0 : Int) ≤ (r.den : Int) := Int.ofNat_nonneg _
  unfold truncate
  rw [Int.tdiv_eq_ediv hnum hden, ← Rat.floor_def, Int.floor_toNat]

theorem truncate_nonneg {r : ℚ} (h : 0 ≤ r) : 0 ≤ truncate r := by
  have hnum : 0 ≤ r.num := Rat.num_nonneg.mpr h
  have hden : (0 : Int) ≤ (r.den : Int) := Int.ofNat_nonneg _
  unfold truncate
  rw [Int.tdiv_eq_ediv hnum hden]
  exact Int.ediv_nonneg hnum hden

theorem slice0_of_nonneg {α : Type} (xs : List α) {r : ℚ} (h : 0 ≤ r) :
    slice0 xs (.fin r) = xs.take ⌊r⌋₊ := by
  have hk : ¬ truncate r < 0 := not_lt.mpr (truncate_nonneg h)
  simp only [slice0, sliceEnd, hk, if_false, truncate_toNat h]
  rw [List.take_eq_take]
  simp

theorem sliceEnd_le (len : Nat) (n : JSNum) : sliceEnd len n ≤ len := by
  cases n with
  | fin q =>
    simp only [sliceEnd]
    split
    · omega
    · exact Nat.min_le_right _ _
  | _ => simp [sliceEnd]

theorem length_slice0 {α : Type} (xs : List α) (n : JSNum) :
    (slice0 xs n).length = sliceEnd xs.length n := by
  simp [slice0, sliceEnd_le]

theorem sample_store_eq :
    sampleStore =
      ⟨[(aliceId, ⟨.str "alice", aliceId⟩)], [(aliceId, [entry1, entry2, entry3])]⟩ := by
  decide!

theorem sample_users_lookup :
    sampleStore.users.lookup aliceId = some ⟨.str "alice", aliceId⟩ := by
  decide!

theorem sample_logs_lookup :
    sampleStore.logs.lookup aliceId = some [entry1, entry2, entry3] := by
  decide!

/-! ## Writing the stores -/

theorem lookup_of_getProp {α : Type} {o : List (String × α)} {k : String} {a : α}
    (h : getProp o k = .own a) : o.lookup k = some a := by
  unfold getProp at h
  cases hk : o.lookup k with
  | some b =>
    rw [hk] at h
    cases h
    rfl
  | none =>
    rw [hk] at h
    simp only at h
    split at h <;> cases h

theorem lookup_eq_none_of_not_mem {α : Type} {o : List (String × α)} {k : String}
    (h : k ∉ keys o) : o.lookup k = none := by
  induction o with
  | nil => rfl
  | cons kv o ih =>
    obtain ⟨k', v'⟩ := kv
    simp only [keys, List.map_cons, List.mem_cons, not_or] at h
    have hne : (k == k') = false := by simpa using h.1
    simp only [List.lookup_cons, hne]
    exact ih h.2

theorem mem_keys_of_lookup {α : Type} {o : List (String × α)} {k : String} {a : α}
    (h : o.lookup k = some a) : k ∈ keys o := by
  by_contra hk
  rw [lookup_eq_none_of_not_mem hk] at h
  cases h

theorem lookup_setProp_self {α : Type} (o : List (String × α)) (k : String) (v : α) :
    (setProp o k v).lookup k = some v := by
  induction o with
  | nil => simp [setProp]
  | cons kv o ih =>
    obtain ⟨k', v'⟩ := kv
    by_cases hk : k' = k
    · simp [setProp, hk]
    · have hne : (k == k') = false := by simpa using fun h => hk h.symm
      simp [setProp, hk, List.lookup_cons, hne, ih]

theorem lookup_setProp_ne {α : Type} (o : List (String × α)) {k k' : String} (v : α)
    (h : k' ≠ k) : (setProp o k v).lookup k' = o.lookup k' := by
  induction o with
  | nil =>
    have hne : (k' == k) = false := by simpa using h
    simp [setProp, List.lookup_cons, hne]
  | cons kv o ih =>
    obtain ⟨k₁, v₁⟩ := kv
    by_cases hk : k₁ = k
    · subst hk
      have hne : (k' == k₁) = false := by simpa using h
      simp [setProp, List.lookup_cons, hne]
    · simp [setProp, hk, List.lookup_cons, ih]

theorem setProp_of_not_mem {α : Type} (o : List (String × α)) {k : String} (v : α)
    (h : k ∉ keys o) : setProp o k v = o ++ [(k, v)] := by
  induction o with
  | nil => rfl
  | cons kv o ih =>
    obtain ⟨k', v'⟩ := kv
    simp only [keys, List.map_cons, List.mem_cons, not_or] at h
    have hk : ¬ k' = k := fun e => h.1 e.symm
    simp [setProp, hk, ih h.2]

theorem keys_setProp_of_mem {α : Type} (o : List (String × α)) {k : String} (v : α)
    (h : k ∈ keys o) : keys (setProp o k v) = keys o := by
  induction o with
  | nil => simp [keys] at h
  | cons kv o ih =>
    obtain ⟨k', v'⟩ := kv
    by_cases hk : k' = k
    · simp [setProp, hk, keys]
    · have hmem : k ∈ keys o := by
        simp only [keys, List.map_cons, List.mem_cons] at h
        rcases h with h | h
        · exact absurd h.symm hk
        · exact h
      have := ih hmem
      simp only [keys] at this
      simp [setProp, hk, keys, this]

theorem keys_setProp {α β : Type} (o : List (String × α)) (o' : List (String × β))
    (k : String) (v : α) (v' : β) (h : keys o = keys o') :
    keys (setProp o k v) = keys (setProp o' k v') := by
  by_cases hk : k ∈ keys o
  · rw [keys_setProp_of_mem o v hk, keys_setProp_of_mem o' v' (h ▸ hk), h]
  · rw [setProp_of_not_mem o v hk, setProp_of_not_mem o' v' (h ▸ hk)]
    simp [keys] at h ⊢
    exact h

theorem postExercises_eq (rt : Runtime) (eff : Effects) (st : Store) (_id : String)
    (body : Body) :
    postExercises rt eff st _id body =
      if getProp st.users _id = .undefined then (.error 400 "unknown _id", st)
      else if (!truthy body.description || !truthy body.duration) = true then
        (.error 400 "description and duration required", st)
      else if isNaN (toNumber rt body.duration) = true then
        (.error 400 "duration must be a number", st)
      else
        match (if truthy body.date = true then newDate rt body.date else some eff.now) with
        | none => (.error 400 "invalid date", st)
        | some t =>
          match getProp st.logs _id with
          | .own userLogs =>
            (.exercise (getProp st.users _id).username body.description
                (toNumber rt body.duration) (rt.toDateString t) (getProp st.users _id).id,
              ⟨st.users, setProp st.logs _id
                (userLogs ++ [⟨body.description, toNumber rt body.duration,
                  rt.toDateString t⟩])⟩)
          | _ => (.uncaught, st) := by
  unfold postExercises
  cases getProp st.users _id <;> rfl

theorem postExercises_users (rt : Runtime) (eff : Effects) (st : Store) (_id : String)
    (body : Body) : (postExercises rt eff st _id body).2.users = st.users := by
  rw [postExercises_eq]
  repeat' split
  all_goals rfl

theorem postExercises_logs (rt : Runtime) (eff : Effects) (st : Store) (_id : String)
    (body : Body) :
    (postExercises rt eff st _id body).2.logs = st.logs
    ∨ ∃ userLogs entry, st.logs.lookup _id = some userLogs
        ∧ (postExercises rt eff st _id body).2.logs
            = setProp st.logs _id (userLogs ++ [entry]) := by
  rw [postExercises_eq]
  repeat' split
  all_goals first
    | exact Or.inl rfl
    | exact Or.inr ⟨_, _, lookup_of_getProp (by assumption), rfl⟩

theorem handle_keys (rt : Runtime) (eff : Effects) (st : Store) (req : Request)
    (h : keys st.users = keys st.logs) :
    keys (handle rt eff st req).2.users = keys (handle rt eff st req).2.logs := by
  cases req with
  | postUsers body =>
    simp only [handle, postUsers]
    split
    · exact h
    · exact keys_setProp _ _ _ _ _ h
  | getUsers => exact h
  | getLogs _id query => exact h
  | postExercises _id body =>
    simp only [handle]
    rw [postExercises_users]
    rcases postExercises_logs rt eff st _id body with hl | ⟨userLogs, entry, hlook, hl⟩
    · rw [hl]
      exact h
    · rw [hl, keys_setProp_of_mem _ _ (mem_keys_of_lookup hlook)]
      exact h

theorem reachable_keys {rt : Runtime} {st : Store} (h : Reachable rt st) :
    keys st.users = keys st.logs := by
  induction h with
  | init => rfl
  | step eff req _ ih => exact handle_keys rt eff _ req ih

theorem reachable_runRequests {rt : Runtime} (reqs : List (Effects × Request)) :
    ∀ {st : Store}, Reachable rt st → Reachable rt (runRequests rt st reqs) := by
  induction reqs with
  | nil => exact fun h => h
  | cons r reqs ih => exact fun h => ih (Reachable.step r.1 r.2 h)

theorem sample_store_reachable : Reachable (node 0) sampleStore :=
  reachable_runRequests sampleRequests Reachable.init

/-! ## Log retrieval -/

/-- C1 as stated fails: with three stored entries, no `from`/`to` and
`limit=1`, all three entries pass the date filters but the `count` of the
response is 1. -/
theorem count_not_before_limit :
    sampleStore.logs.lookup aliceId = some [entry1, entry2, entry3]
    ∧ ([entry1, entry2, entry3].filter (inRange (node 0) none none)).length = 3
    ∧ (getLogs (node 0) sampleStore aliceId { limit := .str "1" }).count = some 1 := by
  decide!

/-- C1, amended: for an existing user the `count` of the log response is the
size of the from/to-filtered sequence after the limit truncation: the end
index `slice(0, N)` computes on it when a non-empty limit parses as the number
`N`, its full size otherwise. -/
theorem count_after_limit (rt : Runtime) (st : Store) (_id : String) (query : Query)
    (u : User) (es : List Entry)
    (hu : st.users.lookup _id = some u) (hl : st.logs.lookup _id = some es) :
    (getLogs rt st _id query).count =
      some (if truthy query.limit = true ∧ toNumber rt query.limit ≠ .nan then
          sliceEnd (es.filter (inRange rt (bound rt query.from_) (bound rt query.to_))).length
            (toNumber rt query.limit)
        else (es.filter (inRange rt (bound rt query.from_) (bound rt query.to_))).length) := by
  rw [getLogs_of_lookup rt st _id query u es hu hl, filterTo_filterFrom]
  simp only [Response.count, applyLimit]
  generalize es.filter (inRange rt (bound rt query.from_) (bound rt query.to_)) = l
  cases hl : truthy query.limit
  · simp
  · cases hn : toNumber rt query.limit <;> simp [isNaN, length_slice0]

/-- Witness of `count_after_limit`: three stored entries and `limit=1` give
`count` 1. -/
theorem count_after_limit_witness :
    (getLogs (node 0) sampleStore aliceId { limit := .str "1" }).count = some 1 :=
  (count_after_limit (node 0) sampleStore aliceId { limit := .str "1" } _ _
    sample_users_lookup sample_logs_lookup).trans (by decide!)

/-- C2 as stated fails: `limit=-1` parses as the number -1, and the log then
holds the first two of the three entries, which is more than -1 entries. -/
theorem negative_limit_counts_from_end :
    toNumber (node 0) (.str "-1") = .fin (-1)
    ∧ (getLogs (node 0) sampleStore aliceId { limit := .str "-1" }).entries
        = some [entry1, entry2]
    ∧ ¬ (([entry1, entry2].length : ℚ) ≤ -1) := by
  refine ⟨by decide!, by decide!, ?_⟩
  norm_num

/-- C2, amended: for an existing user, when the limit is non-empty and its
`Number` is a number `N` that is not negative, `Infinity` included, the log is
the first `N` entries of the from/to-filtered sequence (all of it when it has
fewer, so all of it for `Infinity`) and so never has more than `N` entries;
when the `Number` of the limit is `NaN` the log is the whole filtered
sequence. -/
theorem limit_truncation (rt : Runtime) (st : Store) (_id : String) (query : Query)
    (u : User) (es : List Entry)
    (hu : st.users.lookup _id = some u) (hl : st.logs.lookup _id = some es)
    (hn : toNumber rt query.limit = .nan
      ∨ (truthy query.limit = true
          ∧ (toNumber rt query.limit = .posInf
              ∨ ∃ r, toNumber rt query.limit = .fin r ∧ 0 ≤ r))) :
    (getLogs rt st _id query).entries =
        some ((firstN (toNumber rt query.limit)
          (es.filter (inRange rt (bound rt query.from_) (bound rt query.to_)))).map
            (normalize rt))
    ∧ (toNumber rt query.limit = .nan ∨ toNumber rt query.limit = .posInf →
        (getLogs rt st _id query).entries =
          some ((es.filter (inRange rt (bound rt query.from_) (bound rt query.to_))).map
            (normalize rt)))
    ∧ ∀ r log, toNumber rt query.limit = .fin r →
        (getLogs rt st _id query).entries = some log → (log.length : ℚ) ≤ r := by
  rw [getLogs_of_lookup rt st _id query u es hu hl, filterTo_filterFrom]
  simp only [Response.entries]
  generalize es.filter (inRange rt (bound rt query.from_) (bound rt query.to_)) = l
  rcases hn with hnan | ⟨ht, hinf | ⟨r, hr, hr0⟩⟩
  · have hlim : applyLimit rt query.limit l = l := by
      simp [applyLimit, hnan, isNaN]
    rw [hlim, hnan]
    refine ⟨rfl, fun _ => rfl, ?_⟩
    intro r log h
    cases h
  · have hlim : applyLimit rt query.limit l = l := by
      simp [applyLimit, ht, hinf, isNaN, slice0, sliceEnd]
    rw [hlim, hinf]
    refine ⟨rfl, fun _ => rfl, ?_⟩
    intro r log h
    cases h
  · have hlim : applyLimit rt query.limit l = l.take ⌊r⌋₊ := by
      simp [applyLimit, ht, hr, isNaN, slice0_of_nonneg l hr0]
    rw [hlim, hr]
    refine ⟨rfl, ?_, ?_⟩
    · intro h
      rcases h with h | h <;> cases h
    · intro r' log h hlog
      cases h
      cases hlog
      have h1 : (l.take ⌊r⌋₊).length ≤ ⌊r⌋₊ := by simp
      have h2 : ((⌊r⌋₊ : ℕ) : ℚ) ≤ r := Nat.floor_le hr0
      have h3 : (((l.take ⌊r⌋₊).length : ℕ) : ℚ) ≤ ((⌊r⌋₊ : ℕ) : ℚ) := by exact_mod_cast h1
      simpa using le_trans h3 h2

/-- Witness of `limit_truncation`: `limit=2` on the three stored entries gives
the first two. -/
theorem limit_truncation_witness :
    (getLogs (node 0) sampleStore aliceId { limit := .str "2" }).entries
      = some [entry1, entry2] :=
  (limit_truncation (node 0) sampleStore aliceId { limit := .str "2" } _ _
    sample_users_lookup sample_logs_lookup
    (Or.inr ⟨by decide, Or.inr ⟨2, by decide!, by norm_num⟩⟩)).1.trans (by decide!)

/-- C3 as stated fails: in a process five and a half hours ahead of UTC the
three requests dated `2024-01-01`, `2024-01-02` and `2024-01-03` store entries
dated 1, 2 and 3 January 2024, and `from=2024-01-02` returns only the third:
the entry dated 2 January, the day of `from`, is dropped. -/
theorem from_drops_same_day :
    runRequests (node 330) Store.empty sampleRequests
      = ⟨[(aliceId, ⟨.str "alice", aliceId⟩)], [(aliceId, [entry1, entry2, entry3])]⟩
    ∧ (getLogs (node 330) (runRequests (node 330) Store.empty sampleRequests) aliceId
        { from_ := .str "2024-01-02" }).entries = some [entry3] := by
  constructor <;> decide!

/-- C3, amended: for an existing user, when `from` is absent or a non-empty
valid date with time value `lo`, `to` is absent or a non-empty valid date with
time value `hi`, and no limit is given, the log is made of exactly the stored
entries whose date string the engine reads as a time value at or after `lo`
(if given) and at or before `hi` (if given), in their stored order.  So for
three entries whose dates have the time values `t1 < t2 < t3`, a `from` with
time value `t2` yields the second and third and a `to` with time value `t2`
yields the first and second. -/
theorem date_range_filter (rt : Runtime) (st : Store) (_id : String) (query : Query)
    (u : User) (es : List Entry) (lo hi : Option Int)
    (hu : st.users.lookup _id = some u) (hl : st.logs.lookup _id = some es)
    (hfrom : (lo = none ∧ query.from_ = .undefined)
      ∨ (truthy query.from_ = true ∧ lo ≠ none ∧ newDate rt query.from_ = lo))
    (hto : (hi = none ∧ query.to_ = .undefined)
      ∨ (truthy query.to_ = true ∧ hi ≠ none ∧ newDate rt query.to_ = hi))
    (hlimit : query.limit = .undefined) :
    (getLogs rt st _id query).entries
      = some ((es.filter (inRange rt lo hi)).map (normalize rt))
    ∧ ∀ e1 e2 e3 t1 t2 t3, es = [e1, e2, e3] →
        rt.dateParse e1.date = some t1 → rt.dateParse e2.date = some t2 →
        rt.dateParse e3.date = some t3 → t1 < t2 → t2 < t3 →
        (lo = some t2 → hi = none →
          (getLogs rt st _id query).entries = some [normalize rt e2, normalize rt e3])
        ∧ (lo = none → hi = some t2 →
          (getLogs rt st _id query).entries = some [normalize rt e1, normalize rt e2]) := by
  have hlo : bound rt query.from_ = lo := by
    rcases hfrom with ⟨h1, h2⟩ | ⟨h1, _, h3⟩
    · simp [bound, h1, h2, truthy]
    · simp [bound, h1, h3]
  have hhi : bound rt query.to_ = hi := by
    rcases hto with ⟨h1, h2⟩ | ⟨h1, _, h3⟩
    · simp [bound, h1, h2, truthy]
    · simp [bound, h1, h3]
  have hmain : (getLogs rt st _id query).entries
      = some ((es.filter (inRange rt lo hi)).map (normalize rt)) := by
    rw [getLogs_of_lookup rt st _id query u es hu hl, filterTo_filterFrom, hlo, hhi]
    simp [Response.entries, applyLimit, hlimit, truthy]
  refine ⟨hmain, ?_⟩
  intro e1 e2 e3 t1 t2 t3 hes h1 h2 h3 h12 h23
  have h13 : t1 < t3 := lt_trans h12 h23
  constructor
  · intro hlo' hhi'
    rw [hmain, hes, hlo', hhi']
    simp [List.filter, inRange, h1, h2, h3, not_le.mpr h12, le_of_lt h23]
  · intro hlo' hhi'
    rw [hmain, hes, hlo', hhi']
    simp [List.filter, inRange, h1, h2, h3, not_le.mpr h23, le_of_lt h12]

/-- Witness of `date_range_filter`: in a process in UTC, with entries dated 1,
2 and 3 January 2024, `from=2024-01-02` yields the second and third and
`to=2024-01-02` yields the first and second. -/
theorem date_range_filter_witness :
    (getLogs (node 0) sampleStore aliceId { from_ := .str "2024-01-02" }).entries
      = some [entry2, entry3]
    ∧ (getLogs (node 0) sampleStore aliceId { to_ := .str "2024-01-02" }).entries
      = some [entry1, entry2] :=
  ⟨((date_range_filter (node 0) sampleStore aliceId { from_ := .str "2024-01-02" } _ _
      (some 1704153600000) none sample_users_lookup sample_logs_lookup
      (Or.inr ⟨by decide, by decide, by decide⟩) (Or.inl ⟨rfl, rfl⟩) rfl).2
        entry1 entry2 entry3 1704067200000 1704153600000 1704240000000
        rfl (by decide) (by decide) (by decide) (by decide) (by decide)).1 rfl rfl
      |>.trans (by decide!),
   ((date_range_filter (node 0) sampleStore aliceId { to_ := .str "2024-01-02" } _ _
      none (some 1704153600000) sample_users_lookup sample_logs_lookup
      (Or.inl ⟨rfl, rfl⟩) (Or.inr ⟨by decide, by decide, by decide⟩) rfl).2
        entry1 entry2 entry3 1704067200000 1704153600000 1704240000000
        rfl (by decide) (by decide) (by decide) (by decide) (by decide)).2 rfl rfl
      |>.trans (by decide!)⟩

/-! ## Exercise creation -/

/-- C4 as stated fails: for the existing user of `sampleStore`, a duration
that is the whitespace-only string is coerced to 0 and one that is the boolean
`true` is coerced to 1; both requests are answered 200 and an entry is
stored. -/
theorem whitespace_duration_accepted :
    postExercises (node 0) sampleEffects sampleStore aliceId
        { description := .str "walk", duration := .str " " }
      = (.exercise (.str "alice") (.str "walk") (.fin 0) "Mon Jan 01 2024" (.str aliceId),
          ⟨[(aliceId, ⟨.str "alice", aliceId⟩)],
           [(aliceId, [entry1, entry2, entry3,
              ⟨.str "walk", .fin 0, "Mon Jan 01 2024"⟩])]⟩)
    ∧ postExercises (node 0) sampleEffects sampleStore aliceId
        { description := .str "walk", duration := .bool true }
      = (.exercise (.str "alice") (.str "walk") (.fin 1) "Mon Jan 01 2024" (.str aliceId),
          ⟨[(aliceId, ⟨.str "alice", aliceId⟩)],
           [(aliceId, [entry1, entry2, entry3,
              ⟨.str "walk", .fin 1, "Mon Jan 01 2024"⟩])]⟩) := by
  constructor <;> decide!

/-- C4, amended: whenever `Number` turns the `duration` of an exercise-creation
request into `NaN`, the handler answers 400 and the stores are left as they
were; this holds for every identifier, so for every existing user. -/
theorem nan_duration_rejected (rt : Runtime) (eff : Effects) (st : Store) (_id : String)
    (body : Body) (h : toNumber rt body.duration = .nan) :
    (postExercises rt eff st _id body).1.status = 400
    ∧ (postExercises rt eff st _id body).2 = st := by
  rw [postExercises_eq, h]
  split
  · exact ⟨rfl, rfl⟩
  · split
    · exact ⟨rfl, rfl⟩
    · exact ⟨rfl, rfl⟩

/-- Witness of `nan_duration_rejected`: the duration `abc`. -/
theorem nan_duration_rejected_witness :
    (postExercises (node 0) sampleEffects sampleStore aliceId
        { description := .str "walk", duration := .str "abc" }).1.status = 400
    ∧ (postExercises (node 0) sampleEffects sampleStore aliceId
        { description := .str "walk", duration := .str "abc" }).2 = sampleStore :=
  nan_duration_rejected (node 0) sampleEffects sampleStore aliceId
    { description := .str "walk", duration := .str "abc" } (by decide)

/-- C5 fails on the code: for the existing user of `sampleStore`, a non-empty
description and the duration given as the number 0, the handler answers 400
with the missing-field error and stores nothing, while the same duration given
as the string `0` is accepted and stored as the number 0. -/
theorem zero_duration_rejected :
    postExercises (node 0) sampleEffects sampleStore aliceId
        { description := .str "rest", duration := .num (.fin 0) }
      = (.error 400 "description and duration required", sampleStore)
    ∧ postExercises (node 0) sampleEffects sampleStore aliceId
        { description := .str "rest", duration := .str "0" }
      = (.exercise (.str "alice") (.str "rest") (.fin 0) "Mon Jan 01 2024" (.str aliceId),
          ⟨[(aliceId, ⟨.str "alice", aliceId⟩)],
           [(aliceId, [entry1, entry2, entry3,
              ⟨.str "rest", .fin 0, "Mon Jan 01 2024"⟩])]⟩) := by
  constructor <;> decide!

/-! ## User creation -/

/-- C6 as stated fails: in the reachable `sampleStore`, a user-creation request
that reads the same clock value and the same random draw as the one that
created `alice` is answered with the identifier that is already the key of
`alice`. -/
theorem identifier_can_repeat :
    Reachable (node 0) sampleStore
    ∧ aliceId ∈ keys sampleStore.users
    ∧ (postUsers sampleEffects sampleStore { username := .str "bob" }).1
        = .user ⟨.str "bob", aliceId⟩ :=
  ⟨sample_store_reachable, by decide!, by decide!⟩

/-- C6, amended: in every reachable store state, for every non-empty (truthy)
username, when the generated identifier is not already a key of the user
store, the handler answers 200 with exactly that username and that identifier,
and afterwards the user store is the old one with that record added under the
identifier and the entry store is the old one with an empty sequence added
under it. -/
theorem fresh_user_created (rt : Runtime) (eff : Effects) (st : Store) (body : Body)
    (hst : Reachable rt st) (hname : truthy body.username = true)
    (hfresh : makeId eff ∉ keys st.users) :
    (postUsers eff st body).1 = .user ⟨body.username, makeId eff⟩
    ∧ (postUsers eff st body).1.status = 200
    ∧ (postUsers eff st body).2.users
        = st.users ++ [(makeId eff, ⟨body.username, makeId eff⟩)]
    ∧ (postUsers eff st body).2.logs = st.logs ++ [(makeId eff, [])]
    ∧ (postUsers eff st body).2.users.lookup (makeId eff)
        = some ⟨body.username, makeId eff⟩
    ∧ (postUsers eff st body).2.logs.lookup (makeId eff) = some [] := by
  have hlogs : makeId eff ∉ keys st.logs := reachable_keys hst ▸ hfresh
  have hpost : postUsers eff st body
      = (.user ⟨body.username, makeId eff⟩,
          ⟨setProp st.users (makeId eff) ⟨body.username, makeId eff⟩,
           setProp st.logs (makeId eff) []⟩) := by
    simp [postUsers, hname]
  rw [hpost]
  exact ⟨rfl, rfl, setProp_of_not_mem _ _ hfresh, setProp_of_not_mem _ _ hlogs,
    lookup_setProp_self _ _ _, lookup_setProp_self _ _ _⟩

/-- Witness of `fresh_user_created`: the first user of the empty store. -/
theorem fresh_user_created_witness :
    (postUsers sampleEffects Store.empty { username := .str "alice" }).1
      = .user ⟨.str "alice", aliceId⟩ :=
  (fresh_user_created (node 0) sampleEffects Store.empty { username := .str "alice" }
    Reachable.init (by decide) (by decide)).1

/-! ## Effects on the stores -/

/-- C7 as stated fails: in the reachable `sampleStore`, where `alice` has three
entries, a user-creation request that generates the identifier of `alice`
again replaces her record by that of `bob` and her sequence by the empty
one. -/
theorem colliding_creation_overwrites :
    Reachable (node 0) sampleStore
    ∧ sampleStore.users.lookup aliceId = some ⟨.str "alice", aliceId⟩
    ∧ sampleStore.logs.lookup aliceId = some [entry1, entry2, entry3]
    ∧ (handle (node 0) sampleEffects sampleStore
          (.postUsers { username := .str "bob" })).2
        = ⟨[(aliceId, ⟨.str "bob", aliceId⟩)], [(aliceId, [])]⟩ :=
  ⟨sample_store_reachable, by decide!, by decide!, by decide!⟩

/-- C7, amended: in every reachable store state and for every request to one
of the four endpoints, provided that a user-creation request does not generate
an identifier that is already a key of the user store, every user record that
existed before is still stored under its identifier afterwards, and every
entry sequence that existed before is an initial segment of the sequence
stored under the same identifier afterwards. -/
theorem existing_data_kept (rt : Runtime) (eff : Effects) (st : Store) (req : Request)
    (hst : Reachable rt st)
    (hfresh : ∀ body, req = .postUsers body → makeId eff ∉ keys st.users) :
    (∀ _id u, st.users.lookup _id = some u →
        (handle rt eff st req).2.users.lookup _id = some u)
    ∧ (∀ _id es, st.logs.lookup _id = some es →
        ∃ es', (handle rt eff st req).2.logs.lookup _id = some es' ∧ es <+: es') := by
  cases req with
  | getUsers => exact ⟨fun _ _ h => h, fun _ es h => ⟨es, h, List.prefix_refl es⟩⟩
  | getLogs _id query => exact ⟨fun _ _ h => h, fun _ es h => ⟨es, h, List.prefix_refl es⟩⟩
  | postUsers body =>
    have hu : makeId eff ∉ keys st.users := hfresh body rfl
    have hl : makeId eff ∉ keys st.logs := reachable_keys hst ▸ hu
    simp only [handle, postUsers]
    split
    · exact ⟨fun _ _ h => h, fun _ es h => ⟨es, h, List.prefix_refl es⟩⟩
    · constructor
      · intro k u h
        have hne : k ≠ makeId eff := fun e => hu (e ▸ mem_keys_of_lookup h)
        simpa [lookup_setProp_ne _ _ hne] using h
      · intro k es h
        have hne : k ≠ makeId eff := fun e => hl (e ▸ mem_keys_of_lookup h)
        exact ⟨es, by simpa [lookup_setProp_ne _ _ hne] using h, List.prefix_refl es⟩
  | postExercises _id body =>
    simp only [handle]
    rw [postExercises_users]
    refine ⟨fun _ _ h => h, ?_⟩
    intro k es h
    rcases postExercises_logs rt eff st _id body with hl | ⟨userLogs, entry, hlook, hl⟩
    · rw [hl]
      exact ⟨es, h, List.prefix_refl es⟩
    · rw [hl]
      by_cases hk : k = _id
      · subst hk
        rw [hlook] at h
        cases h
        exact ⟨_, lookup_setProp_self _ _ _, List.prefix_append _ _⟩
      · exact ⟨es, by rw [lookup_setProp_ne _ _ hk]; exact h, List.prefix_refl es⟩

/-- Witness of `existing_data_kept`: creating `bob` in `sampleStore` one
millisecond after `alice` generates a new identifier and keeps her record and
her three entries. -/
theorem existing_data_kept_witness :
    (handle (node 0) laterEffects sampleStore
        (.postUsers { username := .str "bob" })).2.users.lookup aliceId
      = some ⟨.str "alice", aliceId⟩
    ∧ ∃ es', (handle (node 0) laterEffects sampleStore
        (.postUsers { username := .str "bob" })).2.logs.lookup aliceId = some es'
      ∧ [entry1, entry2, entry3] <+: es' :=
  ⟨(existing_data_kept (node 0) laterEffects sampleStore
      (.postUsers { username := .str "bob" }) sample_store_reachable
      (fun _ _ => by decide!)).1 aliceId _ sample_users_lookup,
   (existing_data_kept (node 0) laterEffects sampleStore
      (.postUsers { username := .str "bob" }) sample_store_reachable
      (fun _ _ => by decide!)).2 aliceId _ sample_logs_lookup⟩

/-- C8: for every store state and every request, a response whose status is not
200, in particular every 400 response, leaves the user store and the entry
store exactly as they were; the stores change only together with a 200
response. -/
theorem failure_leaves_stores (rt : Runtime) (eff : Effects) (st : Store) (req : Request)
    (h : (handle rt eff st req).1.status ≠ 200) : (handle rt eff st req).2 = st := by
  cases req with
  | getUsers => rfl
  | getLogs _id query => rfl
  | postUsers body =>
    simp only [handle, postUsers] at h ⊢
    split
    · rfl
    · rename_i hn
      simp [hn, Response.status] at h
  | postExercises _id body =>
    simp only [handle] at h ⊢
    rw [postExercises_eq] at h ⊢
    repeat' split
    all_goals first
      | rfl
      | (exfalso
         revert h
         simp [*, Response.status])

/-- Witness of `failure_leaves_stores`: a user-creation request without a
username is answered 400 and leaves `sampleStore` as it was. -/
theorem failure_leaves_stores_witness :
    (handle (node 0) sampleEffects sampleStore (.postUsers {})).1.status = 400
    ∧ (handle (node 0) sampleEffects sampleStore (.postUsers {})).2 = sampleStore :=
  ⟨by decide, failure_leaves_stores (node 0) sampleEffects sampleStore (.postUsers {})
    (by decide)⟩

/-! ## Rejected requests -/

/-- C9 fails on the code: `constructor` is not a key of the empty user store,
yet neither handler answers 400 for it: the lookup finds the member inherited
from `Object.prototype`, the unknown-user check passes, and both handlers end
in an uncaught `TypeError`, status 500. -/
theorem prototype_key_not_rejected :
    "constructor" ∉ keys Store.empty.users
    ∧ getLogs (node 0) Store.empty "constructor" {} = .uncaught
    ∧ postExercises (node 0) sampleEffects Store.empty "constructor"
        { description := .str "run", duration := .str "30" } = (.uncaught, Store.empty)
    ∧ Response.uncaught.status = 500 := by
  refine ⟨by decide, by decide, by decide!, rfl⟩

/-- C10: for every store state, a user-creation request whose username is
absent or the empty string is answered 400 with the error `username required`,
and the user store and the entry store are left as they were. -/
theorem missing_username_rejected (eff : Effects) (st : Store) (body : Body)
    (h : body.username = .undefined ∨ body.username = .str "") :
    postUsers eff st body = (.error 400 "username required", st) := by
  rcases h with h | h <;> simp [postUsers, h, truthy]

/-- Witness of `missing_username_rejected`: the empty username on
`sampleStore`. -/
theorem missing_username_rejected_witness :
    postUsers sampleEffects sampleStore { username := .str "" }
      = (.error 400 "username required", sampleStore) :=
  missing_username_rejected sampleEffects sampleStore { username := .str "" }
    (Or.inr rfl)

/-! ## Dates of new entries -/

/-- C11 as stated fails: a `date` supplied as the empty string is not a valid
date, yet the request is answered 200 and an entry dated with the current day
is stored. -/
theorem empty_date_accepted :
    newDate (node 0) (.str "") = none
    ∧ postExercises (node 0) sampleEffects sampleStore aliceId
        { description := .str "walk", duration := .str "15", date := .str "" }
      = (.exercise (.str "alice") (.str "walk") (.fin 15) "Mon Jan 01 2024" (.str aliceId),
          ⟨[(aliceId, ⟨.str "alice", aliceId⟩)],
           [(aliceId, [entry1, entry2, entry3,
              ⟨.str "walk", .fin 15, "Mon Jan 01 2024"⟩])]⟩) := by
  constructor <;> decide!

/-- C11, amended: for every existing user and every exercise-creation request
with a non-empty description and a numeric duration, if a non-empty (truthy)
`date` is supplied and does not parse as a valid date, the handler answers 400
with the error `invalid date` and the stores are left as they were. -/
theorem invalid_date_rejected (rt : Runtime) (eff : Effects) (st : Store) (_id : String)
    (body : Body) (u : User) (hu : st.users.lookup _id = some u)
    (hdesc : truthy body.description = true) (hdur : truthy body.duration = true)
    (hnum : toNumber rt body.duration ≠ .nan)
    (hdate : truthy body.date = true) (hbad : newDate rt body.date = none) :
    postExercises rt eff st _id body = (.error 400 "invalid date", st) := by
  have hn : isNaN (toNumber rt body.duration) = false := by
    cases h : toNumber rt body.duration <;> simp_all [isNaN]
  rw [postExercises_eq]
  simp [getProp_of_lookup hu, hdesc, hdur, hn, hdate, hbad]

/-- Witness of `invalid_date_rejected`: the date `abc`. -/
theorem invalid_date_rejected_witness :
    postExercises (node 0) sampleEffects sampleStore aliceId
        { description := .str "walk", duration := .str "15", date := .str "abc" }
      = (.error 400 "invalid date", sampleStore) :=
  invalid_date_rejected (node 0) sampleEffects sampleStore aliceId
    { description := .str "walk", duration := .str "15", date := .str "abc" } _
    sample_users_lookup (by decide) (by decide) (by decide!) (by decide) (by decide)

/-! ## Filters of the log -/

theorem filterFrom_of_invalid (rt : Runtime) (v : JSVal) (es : List Entry)
    (h : newDate rt v = none) : filterFrom rt v es = filterFrom rt .undefined es := by
  simp [filterFrom, h, truthy]

theorem filterTo_of_invalid (rt : Runtime) (v : JSVal) (es : List Entry)
    (h : newDate rt v = none) : filterTo rt v es = filterTo rt .undefined es := by
  simp [filterTo, h, truthy]

theorem applyLimit_of_nan (rt : Runtime) (v : JSVal) (es : List Entry)
    (h : toNumber rt v = .nan) : applyLimit rt v es = applyLimit rt .undefined es := by
  simp [applyLimit, h, truthy, isNaN]

/-- C12: for every existing user, a log request in which `from` or `to` is not
a valid date, or `limit` is not a number, is not answered 400 and gets exactly
the response of the request `query'` that omits those parameters and keeps
the others. -/
theorem invalid_filters_ignored (rt : Runtime) (st : Store) (_id : String) (u : User)
    (query query' : Query) (hu : st.users.lookup _id = some u)
    (hfrom : query'.from_ = query.from_
      ∨ (newDate rt query.from_ = none ∧ query'.from_ = .undefined))
    (hto : query'.to_ = query.to_
      ∨ (newDate rt query.to_ = none ∧ query'.to_ = .undefined))
    (hlimit : query'.limit = query.limit
      ∨ (toNumber rt query.limit = .nan ∧ query'.limit = .undefined)) :
    getLogs rt st _id query = getLogs rt st _id query'
    ∧ (getLogs rt st _id query).status ≠ 400 := by
  have h1 : ∀ es, filterFrom rt query.from_ es = filterFrom rt query'.from_ es := by
    intro es
    rcases hfrom with h | ⟨h, h'⟩
    · rw [h]
    · rw [h', filterFrom_of_invalid rt _ es h]
  have h2 : ∀ es, filterTo rt query.to_ es = filterTo rt query'.to_ es := by
    intro es
    rcases hto with h | ⟨h, h'⟩
    · rw [h]
    · rw [h', filterTo_of_invalid rt _ es h]
  have h3 : ∀ es, applyLimit rt query.limit es = applyLimit rt query'.limit es := by
    intro es
    rcases hlimit with h | ⟨h, h'⟩
    · rw [h]
    · rw [h', applyLimit_of_nan rt _ es h]
  simp only [getLogs, getProp_of_lookup hu, h1, h2, h3]
  refine ⟨trivial, ?_⟩
  cases getProp st.logs _id <;> simp [Response.status]

/-- Witness of `invalid_filters_ignored`: `from=abc` and `limit=many` on
`sampleStore` give the response of the request without parameters. -/
theorem invalid_filters_ignored_witness :
    getLogs (node 0) sampleStore aliceId { from_ := .str "abc", limit := .str "many" }
      = getLogs (node 0) sampleStore aliceId {}
    ∧ (getLogs (node 0) sampleStore aliceId
        { from_ := .str "abc", limit := .str "many" }).status ≠ 400 :=
  invalid_filters_ignored (node 0) sampleStore aliceId _
    { from_ := .str "abc", limit := .str "many" } {} sample_users_lookup
    (Or.inr ⟨by decide, rfl⟩) (Or.inl rfl) (Or.inr ⟨by decide, rfl⟩)

theorem getLogs_eq_selected (rt : Runtime) (st : Store) (_id : String) (query : Query)
    (u : User) (es : List Entry)
    (hu : st.users.lookup _id = some u) (hl : st.logs.lookup _id = some es) :
    getLogs rt st _id query =
      .log u.username (selected rt query es).length (.str u._id)
        ((selected rt query es).map (normalize rt)) :=
  getLogs_of_lookup rt st _id query u es hu hl

theorem applyLimit_sublist (rt : Runtime) (v : JSVal) (es : List Entry) :
    (applyLimit rt v es).Sublist es := by
  unfold applyLimit slice0
  split
  · simp only []
    split
    · exact List.take_sublist _ _
    · exact List.Sublist.refl _
  · exact List.Sublist.refl _

theorem filterFrom_sublist (rt : Runtime) (v : JSVal) (es : List Entry) :
    (filterFrom rt v es).Sublist es := by
  rw [filterFrom_eq]
  exact List.filter_sublist _

theorem filterTo_sublist (rt : Runtime) (v : JSVal) (es : List Entry) :
    (filterTo rt v es).Sublist es := by
  rw [filterTo_eq]
  exact List.filter_sublist _

theorem selected_sublist (rt : Runtime) (query : Query) (es : List Entry) :
    (selected rt query es).Sublist es :=
  ((applyLimit_sublist rt _ _).trans (filterTo_sublist rt _ _)).trans
    (filterFrom_sublist rt _ _)

theorem selected_of_no_filter (rt : Runtime) (query : Query) (es : List Entry)
    (hfrom : query.from_ = .undefined) (hto : query.to_ = .undefined)
    (hlimit : query.limit = .undefined) : selected rt query es = es := by
  simp [selected, applyLimit, filterTo, filterFrom, hfrom, hto, hlimit, truthy]

/-- C13 as stated fails: in the reachable `oldDateStore` the stored entry is
dated `Sat Jan 01 0050`, the engine reads that string back as a day of 1950,
and the log reports the entry with the date `Sun Jan 01 1950`; compared on
description, duration and date the log is not a subsequence of the stored
sequence. -/
theorem log_date_differs_from_stored :
    Reachable (node 0) oldDateStore
    ∧ oldDateStore.logs.lookup aliceId
        = some [⟨.str "run", .fin 30, "Sat Jan 01 0050"⟩]
    ∧ (getLogs (node 0) oldDateStore aliceId {}).entries
        = some [⟨.str "run", .fin 30, "Sun Jan 01 1950"⟩]
    ∧ ¬ List.Sublist [(⟨.str "run", .fin 30, "Sun Jan 01 1950"⟩ : Entry)]
        [⟨.str "run", .fin 30, "Sat Jan 01 0050"⟩] :=
  ⟨reachable_runRequests oldDateRequests Reachable.init, by decide!, by decide!,
    fun h => absurd (List.singleton_sublist.mp h) (by decide!)⟩

/-- C13, amended: for every existing user and every combination of `from`,
`to` and `limit`, the log is made of a subsequence `kept` of the stored
sequence, in the stored order, each entry with its description and duration
unchanged and with its date string read and rendered again by the engine;
when the engine renders the stored date strings unchanged the log is `kept`
itself; and when no filter is given `kept` is the whole stored sequence. -/
theorem order_preserved (rt : Runtime) (st : Store) (_id : String) (query : Query)
    (u : User) (es : List Entry)
    (hu : st.users.lookup _id = some u) (hl : st.logs.lookup _id = some es) :
    ∃ kept, kept.Sublist es
      ∧ (getLogs rt st _id query).entries = some (kept.map (normalize rt))
      ∧ ((∀ e ∈ es, normalize rt e = e) → (getLogs rt st _id query).entries = some kept)
      ∧ (query.from_ = .undefined → query.to_ = .undefined → query.limit = .undefined →
          kept = es) := by
  refine ⟨selected rt query es, selected_sublist rt query es, ?_, ?_, ?_⟩
  · rw [getLogs_eq_selected rt st _id query u es hu hl]
    rfl
  · intro hnorm
    rw [getLogs_eq_selected rt st _id query u es hu hl]
    simp only [Response.entries]
    congr 1
    calc (selected rt query es).map (normalize rt)
        = (selected rt query es).map id :=
          List.map_congr_left
            (fun e he => hnorm e ((selected_sublist rt query es).subset he))
      _ = selected rt query es := List.map_id _
  · exact selected_of_no_filter rt query es

/-- Witness of `order_preserved`: with `from=2024-01-02` and `limit=1` the log
of `sampleStore` is a subsequence of the three stored entries. -/
theorem order_preserved_witness :
    ∃ kept, kept.Sublist [entry1, entry2, entry3]
      ∧ (getLogs (node 0) sampleStore aliceId
          { from_ := .str "2024-01-02", limit := .str "1" }).entries = some kept :=
  let ⟨kept, hsub, _, hlit, _⟩ :=
    order_preserved (node 0) sampleStore aliceId
      { from_ := .str "2024-01-02", limit := .str "1" } _ _
      sample_users_lookup sample_logs_lookup
  ⟨kept, hsub, hlit (by decide!)⟩

/-! ## Invariants of the stores -/

theorem mem_of_lookup {α : Type} {o : List (String × α)} {k : String} {a : α}
    (h : o.lookup k = some a) : (k, a) ∈ o := by
  induction o with
  | nil => cases h
  | cons kv o ih =>
    obtain ⟨k', v'⟩ := kv
    by_cases hk : k = k'
    · subst hk
      simp only [List.lookup_cons_self] at h
      cases h
      exact List.mem_cons_self _ _
    · have hne : (k == k') = false := by simpa using hk
      simp only [List.lookup_cons, hne] at h
      exact List.mem_cons_of_mem _ (ih h)

theorem lookup_isSome_of_mem_keys {α : Type} {o : List (String × α)} {k : String}
    (h : k ∈ keys o) : ∃ a, o.lookup k = some a := by
  induction o with
  | nil => simp [keys] at h
  | cons kv o ih =>
    obtain ⟨k', v'⟩ := kv
    by_cases hk : k = k'
    · subst hk
      exact ⟨v', List.lookup_cons_self⟩
    · have hne : (k == k') = false := by simpa using hk
      have hmem : k ∈ keys o := by
        simp only [keys, List.map_cons, List.mem_cons] at h
        rcases h with h | h
        · exact absurd h hk
        · exact h
      obtain ⟨a, ha⟩ := ih hmem
      exact ⟨a, by simp only [List.lookup_cons, hne]; exact ha⟩

theorem mem_setProp {α : Type} {o : List (String × α)} {k : String} {v : α}
    {p : String × α} (h : p ∈ setProp o k v) : p ∈ o ∨ p = (k, v) := by
  induction o with
  | nil =>
    simp only [setProp, List.mem_singleton] at h
    exact Or.inr h
  | cons kv o ih =>
    obtain ⟨k', v'⟩ := kv
    by_cases hk : k' = k
    · simp only [setProp, hk, if_true, List.mem_cons] at h
      rcases h with h | h
      · exact Or.inr h
      · exact Or.inl (List.mem_cons_of_mem _ h)
    · simp only [setProp, hk, if_false, List.mem_cons] at h
      rcases h with h | h
      · exact Or.inl (h ▸ List.mem_cons_self _ _)
      · rcases ih h with h' | h'
        · exact Or.inl (List.mem_cons_of_mem _ h')
        · exact Or.inr h'

theorem handle_ids (rt : Runtime) (eff : Effects) (st : Store) (req : Request)
    (h : ∀ p ∈ st.users, p.2._id = p.1) :
    ∀ p ∈ (handle rt eff st req).2.users, p.2._id = p.1 := by
  cases req with
  | getUsers => exact h
  | getLogs _id query => exact h
  | postExercises _id body =>
    simp only [handle]
    rw [postExercises_users]
    exact h
  | postUsers body =>
    simp only [handle, postUsers]
    split
    · exact h
    · intro p hp
      rcases mem_setProp hp with hp | hp
      · exact h p hp
      · rw [hp]

theorem reachable_ids {rt : Runtime} {st : Store} (h : Reachable rt st) :
    ∀ p ∈ st.users, p.2._id = p.1 := by
  induction h with
  | init => intro p hp; cases hp
  | step eff req _ ih => exact handle_ids rt eff _ req ih

/-- C14: in every store state reachable from the empty stores, the user store
and the entry store have the same keys: an identifier has an entry sequence
exactly when it has a user record, and the record stored under an identifier
carries that identifier. -/
theorem no_orphaned_entries (rt : Runtime) (st : Store) (h : Reachable rt st) :
    keys st.logs = keys st.users
    ∧ (∀ _id, (∃ es, st.logs.lookup _id = some es) ↔ ∃ u, st.users.lookup _id = some u)
    ∧ (∀ _id u, st.users.lookup _id = some u → u._id = _id) := by
  have hk := reachable_keys h
  refine ⟨hk.symm, ?_, ?_⟩
  · intro _id
    constructor
    · rintro ⟨es, hes⟩
      exact lookup_isSome_of_mem_keys (hk ▸ mem_keys_of_lookup hes)
    · rintro ⟨u, hu⟩
      exact lookup_isSome_of_mem_keys (hk ▸ mem_keys_of_lookup hu)
  · intro _id u hu
    exact reachable_ids h _ (mem_of_lookup hu)

/-- Witness of `no_orphaned_entries`: the keys of `sampleStore`. -/
theorem no_orphaned_entries_witness :
    keys sampleStore.logs = keys sampleStore.users :=
  (no_orphaned_entries (node 0) sampleStore sample_store_reachable).1

/-! ## Read endpoints -/

theorem objectValues_perm {α : Type} (o : List (String × α)) :
    (objectValues o).Perm (o.map Prod.snd) := by
  have hidx : (o.filterMap (fun kv => (arrayIndex kv.1).map (fun i => (i, kv.2)))).map Prod.snd
      = (o.filter (fun kv => (arrayIndex kv.1).isSome)).map Prod.snd := by
    induction o with
    | nil => rfl
    | cons kv o ih =>
      cases hkv : arrayIndex kv.1 with
      | none => simp [List.filterMap_cons, List.filter_cons, hkv, ih]
      | some i => simp [List.filterMap_cons, List.filter_cons, hkv, ih]
  have hoth : (o.filter (fun kv => (arrayIndex kv.1).isNone))
      = o.filter (fun kv => !(arrayIndex kv.1).isSome) := by
    congr 1
    funext kv
    cases arrayIndex kv.1 <;> rfl
  unfold objectValues
  simp only []
  refine ((((List.perm_insertionSort _ _).map Prod.snd).trans (List.Perm.of_eq hidx)).append
    (List.Perm.of_eq (congrArg (List.map Prod.snd) hoth))).trans ?_
  rw [← List.map_append]
  exact (List.filter_append_perm _ o).map Prod.snd

/-- C15: for every store state, `GET /api/users` and `GET /api/users/:_id/logs`
with any query leave both stores unchanged, a second identical request right
after the first gets the same response, and the user list returned is a
rearrangement of the stored user records, so it holds every stored user. -/
theorem reads_leave_stores (rt : Runtime) (eff eff' : Effects) (st : Store)
    (_id : String) (query : Query) :
    (handle rt eff st .getUsers).2 = st
    ∧ (handle rt eff st (.getLogs _id query)).2 = st
    ∧ (handle rt eff' (handle rt eff st .getUsers).2 .getUsers).1
        = (handle rt eff st .getUsers).1
    ∧ (handle rt eff' (handle rt eff st (.getLogs _id query)).2 (.getLogs _id query)).1
        = (handle rt eff st (.getLogs _id query)).1
    ∧ ∃ us, (handle rt eff st .getUsers).1 = .users us
        ∧ us.Perm (st.users.map Prod.snd)
        ∧ ∀ k u, st.users.lookup k = some u → u ∈ us := by
  refine ⟨rfl, rfl, rfl, rfl, objectValues st.users, rfl, objectValues_perm _, ?_⟩
  intro k u hu
  refine (objectValues_perm st.users).mem_iff.mpr ?_
  exact List.mem_map.mpr ⟨(k, u), mem_of_lookup hu, rfl⟩

/-! ## Successful exercise creation -/

theorem isNaN_eq_false {n : JSNum} (h : n ≠ .nan) : isNaN n = false := by
  cases n <;> simp_all [isNaN]

theorem ne_nan_of_isNaN {n : JSNum} (h : isNaN n = false) : n ≠ .nan := by
  intro e
  rw [e] at h
  cases h

theorem postExercises_of_valid (rt : Runtime) (eff : Effects) (st : Store) (_id : String)
    (body : Body) (u : User) (es : List Entry) (t : Int)
    (hu : st.users.lookup _id = some u) (hl : st.logs.lookup _id = some es)
    (hdesc : truthy body.description = true) (hdur : truthy body.duration = true)
    (hnum : toNumber rt body.duration ≠ .nan)
    (ht : (if truthy body.date = true then newDate rt body.date else some eff.now) = some t) :
    postExercises rt eff st _id body =
      (.exercise u.username body.description (toNumber rt body.duration)
          (rt.toDateString t) (.str u._id),
        ⟨st.users, setProp st.logs _id
          (es ++ [⟨body.description, toNumber rt body.duration, rt.toDateString t⟩])⟩) := by
  rw [postExercises_eq]
  simp [getProp_of_lookup hu, getProp_of_lookup hl, hdesc, hdur, isNaN_eq_false hnum, ht,
    Slot.username, Slot.id]

theorem postExercises_cases (rt : Runtime) (eff : Effects) (st : Store) (_id : String)
    (body : Body) :
    (∃ msg, postExercises rt eff st _id body = (.error 400 msg, st))
    ∨ postExercises rt eff st _id body = (.uncaught, st)
    ∨ ∃ userLogs t, st.logs.lookup _id = some userLogs
        ∧ isNaN (toNumber rt body.duration) = false
        ∧ postExercises rt eff st _id body =
          (.exercise (getProp st.users _id).username body.description
              (toNumber rt body.duration) (rt.toDateString t) (getProp st.users _id).id,
            ⟨st.users, setProp st.logs _id
              (userLogs ++ [⟨body.description, toNumber rt body.duration,
                rt.toDateString t⟩])⟩) := by
  rw [postExercises_eq]
  split
  · exact Or.inl ⟨_, rfl⟩
  · split
    · exact Or.inl ⟨_, rfl⟩
    · split
      · exact Or.inl ⟨_, rfl⟩
      · rename_i hnan
        split
        · exact Or.inl ⟨_, rfl⟩
        · split
          · rename_i userLogs hlogs
            exact Or.inr (Or.inr ⟨userLogs, _, lookup_of_getProp hlogs, by simpa using hnan, rfl⟩)
          · exact Or.inr (Or.inl rfl)

/-- C16: starting from the empty stores, creating user `alice` returns her name
with the generated identifier `X`; creating for `X` an exercise with
description `run`, duration the string `30` and no date returns `alice`,
`run`, the number 30, the date string of the current day and `X`; and the
logs of `X` without a query are `alice`, count 1, `X` and the one entry `run`,
30, with the date returned at creation.  The engine is any one that reads the
string `30` as the number 30 and reads the date string of the current day
back as a time value with the same date string. -/
theorem end_to_end_scenario (rt : Runtime) (eff1 eff2 : Effects) (t : Int)
    (h30 : rt.stringToNumber "30" = .fin 30)
    (hparse : rt.dateParse (rt.toDateString eff2.now) = some t)
    (hrender : rt.toDateString t = rt.toDateString eff2.now) :
    (postUsers eff1 Store.empty { username := .str "alice" }).1
      = .user ⟨.str "alice", makeId eff1⟩
    ∧ (postExercises rt eff2 (postUsers eff1 Store.empty { username := .str "alice" }).2
        (makeId eff1) { description := .str "run", duration := .str "30" }).1
      = .exercise (.str "alice") (.str "run") (.fin 30) (rt.toDateString eff2.now)
          (.str (makeId eff1))
    ∧ getLogs rt
        (postExercises rt eff2 (postUsers eff1 Store.empty { username := .str "alice" }).2
          (makeId eff1) { description := .str "run", duration := .str "30" }).2
        (makeId eff1) {}
      = .log (.str "alice") 1 (.str (makeId eff1))
          [⟨.str "run", .fin 30, rt.toDateString eff2.now⟩] := by
  have h1 : postUsers eff1 Store.empty { username := .str "alice" }
      = (.user ⟨.str "alice", makeId eff1⟩,
          ⟨[(makeId eff1, ⟨.str "alice", makeId eff1⟩)], [(makeId eff1, [])]⟩) := by
    simp [postUsers, truthy, Store.empty, setProp]
  have h2 : postExercises rt eff2
        ⟨[(makeId eff1, ⟨.str "alice", makeId eff1⟩)], [(makeId eff1, [])]⟩
        (makeId eff1) { description := .str "run", duration := .str "30" }
      = (.exercise (.str "alice") (.str "run") (.fin 30) (rt.toDateString eff2.now)
            (.str (makeId eff1)),
          ⟨[(makeId eff1, ⟨.str "alice", makeId eff1⟩)],
           [(makeId eff1, [⟨.str "run", .fin 30, rt.toDateString eff2.now⟩])]⟩) := by
    have h := postExercises_of_valid rt eff2
      ⟨[(makeId eff1, ⟨.str "alice", makeId eff1⟩)], [(makeId eff1, [])]⟩ (makeId eff1)
      { description := .str "run", duration := .str "30" } ⟨.str "alice", makeId eff1⟩ []
      eff2.now List.lookup_cons_self List.lookup_cons_self (by decide) (by decide)
      (by simp [toNumber, h30]) (by simp [truthy])
    simpa [toNumber, h30, setProp] using h
  rw [h1, h2]
  refine ⟨rfl, rfl, ?_⟩
  rw [getLogs_eq_selected rt _ (makeId eff1) {} ⟨.str "alice", makeId eff1⟩
    [⟨.str "run", .fin 30, rt.toDateString eff2.now⟩]
    List.lookup_cons_self List.lookup_cons_self]
  simp [selected_of_no_filter, normalize, hparse, hrender]

/-- Witness of `end_to_end_scenario`: Node.js in UTC on 1 January 2024. -/
theorem end_to_end_scenario_witness :
    toDateString 0 laterEffects.now = "Mon Jan 01 2024"
    ∧ getLogs (node 0)
        (postExercises (node 0) laterEffects
          (postUsers sampleEffects Store.empty { username := .str "alice" }).2
          aliceId { description := .str "run", duration := .str "30" }).2
        aliceId {}
      = .log (.str "alice") 1 (.str aliceId)
          [⟨.str "run", .fin 30, toDateString 0 laterEffects.now⟩] :=
  ⟨by decide,
   (end_to_end_scenario (node 0) sampleEffects laterEffects 1704067200000
      (by decide!) (by decide) (by decide)).2.2⟩

/-! ## Durations -/

theorem handle_durations (rt : Runtime) (eff : Effects) (st : Store) (req : Request)
    (h : ∀ p ∈ st.logs, ∀ e ∈ p.2, e.duration ≠ .nan) :
    ∀ p ∈ (handle rt eff st req).2.logs, ∀ e ∈ p.2, e.duration ≠ .nan := by
  cases req with
  | getUsers => exact h
  | getLogs _id query => exact h
  | postUsers body =>
    simp only [handle, postUsers]
    split
    · exact h
    · intro p hp e he
      rcases mem_setProp hp with hp | hp
      · exact h p hp e he
      · rw [hp] at he
        cases he
  | postExercises _id body =>
    simp only [handle]
    rcases postExercises_cases rt eff st _id body with ⟨msg, hr⟩ | hr | ⟨ul, t, hl, hn, hr⟩
    · rw [hr]
      exact h
    · rw [hr]
      exact h
    · rw [hr]
      intro p hp e he
      rcases mem_setProp hp with hp | hp
      · exact h p hp e he
      · rw [hp] at he
        rcases List.mem_append.mp he with he | he
        · exact h _ (mem_of_lookup hl) e he
        · rw [List.mem_singleton.mp he]
          exact ne_nan_of_isNaN hn

theorem reachable_durations {rt : Runtime} {st : Store} (h : Reachable rt st) :
    ∀ p ∈ st.logs, ∀ e ∈ p.2, e.duration ≠ .nan := by
  induction h with
  | init => intro p hp; cases hp
  | step eff req _ ih => exact handle_durations rt eff _ req ih

theorem getLogs_entries_mem (rt : Runtime) (st : Store) (_id : String) (query : Query)
    (log : List Entry) (e : Entry)
    (h : (getLogs rt st _id query).entries = some log) (he : e ∈ log) :
    ∃ es l, st.logs.lookup _id = some es ∧ l ∈ es ∧ e = normalize rt l := by
  unfold getLogs at h
  split at h
  · cases h
  · cases hl : getProp st.logs _id with
    | own es =>
      rw [hl] at h
      simp only [Response.entries, Option.some.injEq] at h
      rw [← h] at he
      obtain ⟨l, hl', rfl⟩ := List.mem_map.mp he
      exact ⟨es, l, lookup_of_getProp hl, (selected_sublist rt query es).subset hl', rfl⟩
    | inherited =>
      rw [hl] at h
      cases h
    | undefined =>
      rw [hl] at h
      simp only [Response.entries, Option.some.injEq] at h
      rw [← h] at he
      obtain ⟨l, hl', rfl⟩ := List.mem_map.mp he
      exact absurd ((selected_sublist rt query []).subset hl') (List.not_mem_nil l)

/-- C17 as stated fails: in the reachable `sampleStore` the duration `1.5` is
accepted, reported in the response and stored as the number 3/2, which is not
a whole number. -/
theorem fractional_duration_stored :
    Reachable (node 0)
      (handle (node 0) sampleEffects sampleStore
        (.postExercises aliceId { description := .str "jog", duration := .str "1.5" })).2
    ∧ handle (node 0) sampleEffects sampleStore
        (.postExercises aliceId { description := .str "jog", duration := .str "1.5" })
      = (.exercise (.str "alice") (.str "jog") (.fin (3 / 2)) "Mon Jan 01 2024"
            (.str aliceId),
          ⟨[(aliceId, ⟨.str "alice", aliceId⟩)],
           [(aliceId, [entry1, entry2, entry3,
              ⟨.str "jog", .fin (3 / 2), "Mon Jan 01 2024"⟩])]⟩)
    ∧ isInteger (.fin (3 / 2)) = false :=
  ⟨Reachable.step _ _ sample_store_reachable, by decide!, by decide!⟩

theorem jsonNumber_eq_none_iff {n : JSNum} (h : n ≠ .nan) :
    jsonNumber n = none ↔ (n = .posInf ∨ n = .negInf) := by
  cases n <;> simp_all [jsonNumber]

/-- C17, amended: in every reachable store state every stored exercise entry
has a duration that is not `NaN`; every successful exercise-creation response
carries the `Number` of the supplied duration, which is not `NaN`, and every
log entry carries a duration that is not `NaN`; such a duration need not be
whole, and in the body of the response it is written as a number exactly when
it is finite and as `null` when it is `Infinity` or `-Infinity`. -/
theorem durations_are_numbers (rt : Runtime) (st : Store) (h : Reachable rt st) :
    (∀ _id es e, st.logs.lookup _id = some es → e ∈ es → e.duration ≠ .nan)
    ∧ (∀ eff _id body un d n dt i,
        (postExercises rt eff st _id body).1 = .exercise un d n dt i →
          n = toNumber rt body.duration ∧ n ≠ .nan
          ∧ (jsonNumber n = none ↔ (n = .posInf ∨ n = .negInf)))
    ∧ (∀ _id query log e, (getLogs rt st _id query).entries = some log → e ∈ log →
        e.duration ≠ .nan
        ∧ (jsonNumber e.duration = none ↔ (e.duration = .posInf ∨ e.duration = .negInf))) := by
  refine ⟨?_, ?_, ?_⟩
  · intro _id es e hes he
    exact reachable_durations h _ (mem_of_lookup hes) e he
  · intro eff _id body un d n dt i hr
    rcases postExercises_cases rt eff st _id body with ⟨msg, hc⟩ | hc | ⟨ul, t, _, hn, hc⟩
    · rw [hc] at hr
      cases hr
    · rw [hc] at hr
      cases hr
    · rw [hc] at hr
      simp only [Response.exercise.injEq] at hr
      obtain ⟨_, _, hnum, _, _⟩ := hr
      have hne : n ≠ .nan := hnum ▸ ne_nan_of_isNaN hn
      exact ⟨hnum.symm, hne, jsonNumber_eq_none_iff hne⟩
  · intro _id query log e hlog he
    obtain ⟨es, l, hes, hl, rfl⟩ := getLogs_entries_mem rt st _id query log e hlog he
    have hne : (normalize rt l).duration ≠ .nan :=
      reachable_durations h _ (mem_of_lookup hes) l hl
    exact ⟨hne, jsonNumber_eq_none_iff hne⟩

/-- Witness of `durations_are_numbers`: in `sampleStore` the duration
`Infinity` is accepted, is not `NaN`, and is written as `null`. -/
theorem durations_are_numbers_witness :
    (postExercises (node 0) sampleEffects sampleStore aliceId
        { description := .str "walk", duration := .str "Infinity" }).1
      = .exercise (.str "alice") (.str "walk") .posInf "Mon Jan 01 2024" (.str aliceId)
    ∧ JSNum.posInf ≠ .nan ∧ jsonNumber .posInf = none :=
  have h := (durations_are_numbers (node 0) sampleStore sample_store_reachable).2.1
    sampleEffects aliceId { description := .str "walk", duration := .str "Infinity" }
    (.str "alice") (.str "walk") .posInf "Mon Jan 01 2024" (.str aliceId) (by decide!)
  ⟨by decide!, h.2.1, h.2.2.mpr (Or.inl rfl)⟩

/-! ## Date strings -/

theorem toDateString_eq (tz t : Int) : toDateString tz t = dateString (localDay tz t) := rfl

/-- C18 as stated fails: in a process five hours behind UTC the supplied dates
`2024-01-05` and `2024-01-05T12:00:00` denote the same calendar day and differ
in the time of day only, yet the first is returned as `Thu Jan 04 2024` and the
second as `Fri Jan 05 2024`; and in a process in UTC a date supplied as the
number 0, the valid date 1 January 1970, is returned as the day of the
clock. -/
theorem same_day_gives_two_strings :
    (postExercises (node (-300)) sampleEffects sampleStore aliceId
        { description := .str "walk", duration := .str "15",
          date := .str "2024-01-05" }).1.date = some "Thu Jan 04 2024"
    ∧ (postExercises (node (-300)) sampleEffects sampleStore aliceId
        { description := .str "walk", duration := .str "15",
          date := .str "2024-01-05T12:00:00" }).1.date = some "Fri Jan 05 2024"
    ∧ newDate (node 0) (.num (.fin 0)) = some 0
    ∧ toDateString 0 0 = "Thu Jan 01 1970"
    ∧ (postExercises (node 0) sampleEffects sampleStore aliceId
        { description := .str "walk", duration := .str "15",
          date := .num (.fin 0) }).1.date = some "Mon Jan 01 2024" := by
  refine ⟨by decide!, by decide!, by decide!, by decide, by decide!⟩

/-- C18, amended: for every valid exercise creation (an existing user, a
non-empty description, a numeric duration) the date string returned and the
one stored are the engine's `toDateString` of the time value `t` of the
supplied date when that date is truthy and valid, and of the clock when the
date is absent or falsy; and for an engine whose `toDateString` renders the
local calendar day `day t` of a time value, a second valid request whose time
value falls on the same local calendar day gets the same date string,
whatever its time of day. -/
theorem date_is_rendered_day (rt : Runtime) (eff eff' : Effects) (st : Store)
    (_id : String) (body body' : Body) (u : User) (es : List Entry) (t t' : Int)
    (day : Int → Int) (render : Int → String)
    (hu : st.users.lookup _id = some u) (hl : st.logs.lookup _id = some es)
    (hdesc : truthy body.description = true) (hdur : truthy body.duration = true)
    (hnum : toNumber rt body.duration ≠ .nan)
    (ht : (truthy body.date = false ∧ t = eff.now)
      ∨ (truthy body.date = true ∧ newDate rt body.date = some t))
    (hdesc' : truthy body'.description = true) (hdur' : truthy body'.duration = true)
    (hnum' : toNumber rt body'.duration ≠ .nan)
    (ht' : (truthy body'.date = false ∧ t' = eff'.now)
      ∨ (truthy body'.date = true ∧ newDate rt body'.date = some t'))
    (hengine : ∀ x, rt.toDateString x = render (day x))
    (hday : day t' = day t) :
    (postExercises rt eff st _id body).1.date = some (rt.toDateString t)
    ∧ (postExercises rt eff st _id body).2.logs.lookup _id
        = some (es ++ [⟨body.description, toNumber rt body.duration, rt.toDateString t⟩])
    ∧ (postExercises rt eff' st _id body').1.date
        = (postExercises rt eff st _id body).1.date := by
  have h1 : (if truthy body.date = true then newDate rt body.date else some eff.now)
      = some t := by
    rcases ht with ⟨hf, ht⟩ | ⟨hf, ht⟩
    · simp [hf, ht]
    · simp [hf, ht]
  have h2 : (if truthy body'.date = true then newDate rt body'.date else some eff'.now)
      = some t' := by
    rcases ht' with ⟨hf, ht⟩ | ⟨hf, ht⟩
    · simp [hf, ht]
    · simp [hf, ht]
  rw [postExercises_of_valid rt eff st _id body u es t hu hl hdesc hdur hnum h1,
    postExercises_of_valid rt eff' st _id body' u es t' hu hl hdesc' hdur' hnum' h2]
  have h3 : rt.toDateString t' = rt.toDateString t := by
    rw [hengine t', hengine t, hday]
  exact ⟨rfl, lookup_setProp_self _ _ _, by simp [Response.date, h3]⟩

/-- Witness of `date_is_rendered_day`: in UTC, 08:00 and 21:30 of 5 January 2024
both give `Fri Jan 05 2024`. -/
theorem date_is_rendered_day_witness :
    (postExercises (node 0) sampleEffects sampleStore aliceId
        { description := .str "walk", duration := .str "15",
          date := .str "2024-01-05T08:00:00Z" }).1.date = some "Fri Jan 05 2024"
    ∧ (postExercises (node 0) sampleEffects sampleStore aliceId
        { description := .str "walk", duration := .str "15",
          date := .str "2024-01-05T21:30:00Z" }).1.date = some "Fri Jan 05 2024" :=
  have h := date_is_rendered_day (node 0) sampleEffects sampleEffects sampleStore aliceId
    { description := .str "walk", duration := .str "15",
      date := .str "2024-01-05T08:00:00Z" }
    { description := .str "walk", duration := .str "15",
      date := .str "2024-01-05T21:30:00Z" }
    _ _ 1704441600000 1704490200000 (localDay 0) dateString
    sample_users_lookup sample_logs_lookup
    (by decide) (by decide) (by decide!) (Or.inr ⟨by decide, by decide⟩)
    (by decide) (by decide) (by decide!) (Or.inr ⟨by decide, by decide⟩)
    (fun _ => rfl) (by decide)
  ⟨h.1.trans (by decide), (h.2.2.trans h.1).trans (by decide)⟩

/-! ## Order of the checks -/

/-- C19 fails on the code: `constructor` is not a key of the empty user store,
yet an exercise-creation request for it with an empty body is answered with
the missing-field error, not with `unknown _id`: the lookup finds the member
inherited from `Object.prototype` and the first check passes. -/
theorem prototype_key_skips_first_check :
    "constructor" ∉ keys Store.empty.users
    ∧ postExercises (node 0) sampleEffects Store.empty "constructor" {}
      = (.error 400 "description and duration required", Store.empty) := by
  constructor <;> decide

/-! ## Count and log -/

/-- C20: for every existing user and every `from`, `to` and `limit`, the log
response has a `count` and a `log`, and the `count` is the number of entries
of the `log`. -/
theorem count_matches_log (rt : Runtime) (st : Store) (_id : String) (query : Query)
    (u : User) (es : List Entry)
    (hu : st.users.lookup _id = some u) (hl : st.logs.lookup _id = some es) :
    ∃ n log, (getLogs rt st _id query).count = some n
      ∧ (getLogs rt st _id query).entries = some log ∧ n = log.length := by
  rw [getLogs_eq_selected rt st _id query u es hu hl]
  exact ⟨_, _, rfl, rfl, (List.length_map _ _).symm⟩

/-- Witness of `count_matches_log`: `limit=2` on `sampleStore`. -/
theorem count_matches_log_witness :
    ∃ n log, (getLogs (node 0) sampleStore aliceId { limit := .str "2" }).count = some n
      ∧ (getLogs (node 0) sampleStore aliceId { limit := .str "2" }).entries = some log
      ∧ n = log.length :=
  count_matches_log (node 0) sampleStore aliceId { limit := .str "2" } _ _
    sample_users_lookup sample_logs_lookup

end ExerciseTracker
